import Mathlib

/-!
Shallow embedding of the particle-network background animation
(force-directed layout, network builder, pulse simulation).

Conventions used throughout:
* JS floating-point numbers are modelled as exact rationals; the claims under
  study are about algorithmic structure, not rounding.
* `Math.sqrt` is irrational in general, so every layout definition takes an
  explicit square-root oracle `sq : ℚ → ℚ` as a parameter; none of the
  verified properties depend on its values.
* `Math.random()` draws are explicit inputs: a rational in `[0,1)` for raw
  draws, a natural number for `Math.floor(Math.random() * n)` index draws
  (reduced mod `n`, which reaches exactly the values `0 .. n-1` that the
  JS expression can produce).
* Object identity is replaced by list indices (layout model) or by a stable
  `id` field (network / pulse model), mirroring the arrays of node objects.
-/

namespace ParticleNet

/-! ### Layout model (`src/js/force-layout.js`)

Nodes as seen by the layout pass: position, velocity, radius, drag flag and
outgoing connections (indices into the node array). -/

structure LNode where
  x : ℚ
  y : ℚ
  vx : ℚ
  vy : ℚ
  radius : ℚ
  isDragged : Bool
  connections : List Nat
deriving DecidableEq, Repr

/-- The content rectangle passed to the layout pass. -/
structure Rect where
  left : ℚ
  right : ℚ
  top : ℚ
  bottom : ℚ
  width : ℚ
  height : ℚ
deriving DecidableEq, Repr

/-- The `config` object built at the top of `applyForceLayout`. -/
structure LayoutConfig where
  iterations : Nat
  repulsionForce : ℚ
  attractionForce : ℚ
  contentRepulsionForce : ℚ
  contentPadding : ℚ
  maxDisplacement : ℚ
  coolingFactor : ℚ
  minDistance : ℚ
  edgePadding : ℚ
  edgeForce : ℚ
deriving Repr

def mkConfig (width height strength : ℚ) : LayoutConfig where
  iterations := if strength > 1/2 then 2 else 1
  repulsionForce := 5000 * strength
  attractionForce := (4/1000) * strength
  contentRepulsionForce := 3 * strength
  contentPadding := 20
  maxDisplacement := 15 * strength
  coolingFactor := 9/10
  minDistance := min width height * (15/100)
  edgePadding := min width height * (1/100)
  edgeForce := 1 * strength

/-- Read the node at index `i` (total: out-of-range reads return a junk
node, which never happens on the in-range accesses of the algorithm). -/
def getIdx (ns : List LNode) (i : Nat) : LNode :=
  (ns.get? i).getD ⟨0, 0, 0, 0, 0, false, []⟩

/-- In-place update of the node at index `i`. -/
def updIdx (ns : List LNode) (i : Nat) (f : LNode → LNode) : List LNode :=
  match ns, i with
  | [], _ => []
  | n :: rest, 0 => f n :: rest
  | n :: rest, j + 1 => n :: updIdx rest j f

/-- `Math.sqrt(dx*dx + dy*dy) || 1` — substitute 1 when the root is zero. -/
def distOr1 (sq : ℚ → ℚ) (dx dy : ℚ) : ℚ :=
  let d := sq (dx * dx + dy * dy)
  if d = 0 then 1 else d

/-- `applyContentRepulsion`: push a node away from the (padded) content
rectangle — toward the nearest edge when inside, by a decaying gradient
when close outside. Pure per-node function (it only writes `vx`/`vy`). -/
def applyContentRepulsion (sq : ℚ → ℚ) (contentRect : Rect) (cfg : LayoutConfig)
    (node : LNode) : LNode :=
  let eLeft := contentRect.left - cfg.contentPadding
  let eRight := contentRect.right + cfg.contentPadding
  let eTop := contentRect.top - cfg.contentPadding
  let eBottom := contentRect.bottom + cfg.contentPadding
  let isInXRange := node.x ≥ eLeft ∧ node.x ≤ eRight
  let isInYRange := node.y ≥ eTop ∧ node.y ≤ eBottom
  if isInXRange ∧ isInYRange then
    let distToLeft := node.x - eLeft
    let distToRight := eRight - node.x
    let distToTop := node.y - eTop
    let distToBottom := eBottom - node.y
    let minDist := min (min distToLeft distToRight) (min distToTop distToBottom)
    let force := cfg.contentRepulsionForce * 3
    if minDist = distToLeft then { node with vx := node.vx - force }
    else if minDist = distToRight then { node with vx := node.vx + force }
    else if minDist = distToTop then { node with vy := node.vy - force }
    else if minDist = distToBottom then { node with vy := node.vy + force }
    else node
  else
    let closestX := max eLeft (min node.x eRight)
    let closestY := max eTop (min node.y eBottom)
    let dx := node.x - closestX
    let dy := node.y - closestY
    let distance := sq (dx * dx + dy * dy)
    let repulsionRadius := min 100 (max 50 ((contentRect.width + contentRect.height) / 8))
    if distance < repulsionRadius ∧ distance > 0 then
      let force := cfg.contentRepulsionForce * (1 - distance / repulsionRadius)
      { node with vx := node.vx + (dx / distance) * force,
                  vy := node.vy + (dy / distance) * force }
    else node

/-- `applyEdgeForces`: inward, quadratically growing push near each canvas
edge; strengthened on small screens. Pure per-node function. -/
def applyEdgeForces (width height : ℚ) (cfg : LayoutConfig) (node : LNode) : LNode :=
  let scaledEdgeForce := cfg.edgeForce * (1 + 1000 / min width height)
  let node :=
    if node.x < cfg.edgePadding then
      let factor := (1 - node.x / cfg.edgePadding) ^ 2
      { node with vx := node.vx + scaledEdgeForce * factor }
    else node
  let node :=
    if node.x > width - cfg.edgePadding then
      let factor := (1 - (width - node.x) / cfg.edgePadding) ^ 2
      { node with vx := node.vx - scaledEdgeForce * factor }
    else node
  let node :=
    if node.y < cfg.edgePadding then
      let factor := (1 - node.y / cfg.edgePadding) ^ 2
      { node with vy := node.vy + scaledEdgeForce * factor }
    else node
  if node.y > height - cfg.edgePadding then
    let factor := (1 - (height - node.y) / cfg.edgePadding) ^ 2
    { node with vy := node.vy - scaledEdgeForce * factor }
  else node

/-- One inner iteration of `applyNodeRepulsion`: the pair `(a, b)`.
Reads both nodes live, writes both (dragged `nodeB` is skipped; dragged
`nodeA` never reaches this code). -/
def repulsePair (sq : ℚ → ℚ) (cfg : LayoutConfig) (a b : Nat)
    (ns : List LNode) : List LNode :=
  let nodeA := getIdx ns a
  let nodeB := getIdx ns b
  if nodeB.isDragged then ns
  else
    let dx := nodeB.x - nodeA.x
    let dy := nodeB.y - nodeA.y
    let distance := distOr1 sq dx dy
    if distance < cfg.minDistance * 2 then
      let force := cfg.repulsionForce / (distance * distance)
      let forceX := (dx / distance) * force
      let forceY := (dy / distance) * force
      let ns := updIdx ns a (fun n => { n with vx := n.vx - forceX, vy := n.vy - forceY })
      updIdx ns b (fun n => { n with vx := n.vx + forceX, vy := n.vy + forceY })
    else ns

/-- Iterate `step b` for `b = start, start+1, …, start+fuel-1` (the JS
`for` loops over array indices, expressed with explicit fuel). -/
def iterFrom (step : Nat → List LNode → List LNode) :
    Nat → Nat → List LNode → List LNode
  | 0, _, ns => ns
  | fuel + 1, b, ns => iterFrom step fuel (b + 1) (step b ns)

/-- `applyNodeRepulsion(nodeA, nodes, a, config)`: the loop over `b > a`. -/
def applyNodeRepulsion (sq : ℚ → ℚ) (cfg : LayoutConfig) (a : Nat)
    (ns : List LNode) : List LNode :=
  iterFrom (repulsePair sq cfg a) (ns.length - (a + 1)) (a + 1) ns

/-- Inner loop of `applyConnectionAttractions`: one connection `j` of
node `i`. Skips dragged endpoints; reads both nodes live, writes both. -/
def attractPair (sq : ℚ → ℚ) (cfg : LayoutConfig) (i j : Nat)
    (ns : List LNode) : List LNode :=
  let node := getIdx ns i
  let connected := getIdx ns j
  if connected.isDragged then ns
  else
    let dx := connected.x - node.x
    let dy := connected.y - node.y
    let distance := distOr1 sq dx dy
    let force := distance * cfg.attractionForce
    let forceX := (dx / distance) * force
    let forceY := (dy / distance) * force
    let ns := updIdx ns i (fun n => { n with vx := n.vx + forceX, vy := n.vy + forceY })
    updIdx ns j (fun n => { n with vx := n.vx - forceX, vy := n.vy - forceY })

/-- `applyConnectionAttractions`: for every node, pull each connected pair
together unless either endpoint is dragged. -/
def applyConnectionAttractions (sq : ℚ → ℚ) (cfg : LayoutConfig)
    (ns : List LNode) : List LNode :=
  iterFrom
    (fun i ns =>
      let node := getIdx ns i
      if node.isDragged then ns
      else node.connections.foldl (fun ns j => attractPair sq cfg i j ns) ns)
    ns.length 0 ns

/-- `applyForces`: per-node content repulsion, edge forces and pairwise
repulsion (dragged nodes skipped), then connection attractions. -/
def applyForces (sq : ℚ → ℚ) (width height : ℚ) (contentRect : Rect)
    (cfg : LayoutConfig) (ns : List LNode) : List LNode :=
  let ns := iterFrom
    (fun a ns =>
      if (getIdx ns a).isDragged then ns
      else
        let ns := updIdx ns a (applyContentRepulsion sq contentRect cfg)
        let ns := updIdx ns a (applyEdgeForces width height cfg)
        applyNodeRepulsion sq cfg a ns)
    ns.length 0 ns
  applyConnectionAttractions sq cfg ns

/-- `limitVelocities` body for one node: clamp the node's displacement to
`maxDisplacement`, then apply the cooling factor. -/
def limitVelocityNode (sq : ℚ → ℚ) (cfg : LayoutConfig) (node : LNode) : LNode :=
  let displacement := sq (node.vx * node.vx + node.vy * node.vy)
  let node :=
    if displacement > cfg.maxDisplacement then
      let scale := cfg.maxDisplacement / displacement
      { node with vx := node.vx * scale, vy := node.vy * scale }
    else node
  { node with vx := node.vx * cfg.coolingFactor, vy := node.vy * cfg.coolingFactor }

/-- `limitVelocities`: applies to every node, dragged or not. -/
def limitVelocities (sq : ℚ → ℚ) (cfg : LayoutConfig) (ns : List LNode) : List LNode :=
  ns.map (limitVelocityNode sq cfg)

/-- `enforceBoundaries`: hard clamp to `radius*2` margins with a damped
velocity bounce. Applies to every node, dragged or not. -/
def enforceBoundaries (width height : ℚ) (node : LNode) : LNode :=
  let margin := node.radius * 2
  let node :=
    if node.x < margin then { node with x := margin, vx := |node.vx| * (1/2) }
    else node
  let node :=
    if node.x > width - margin then { node with x := width - margin, vx := -|node.vx| * (1/2) }
    else node
  let node :=
    if node.y < margin then { node with y := margin, vy := |node.vy| * (1/2) }
    else node
  if node.y > height - margin then { node with y := height - margin, vy := -|node.vy| * (1/2) }
  else node

/-- Repeat a state transformer a fixed number of times (the
`for (let iteration = 0; …)` simulation loop). -/
def iterateN (f : List LNode → List LNode) : Nat → List LNode → List LNode
  | 0, ns => ns
  | n + 1, ns => iterateN f n (f ns)

/-- The default content rectangle built when none is supplied. -/
def defaultRect (width height : ℚ) : Rect :=
  let contentWidth := min 600 (width * (8/10))
  let contentHeight := min 400 (height * (6/10))
  { left := width / 2 - contentWidth / 2
    right := width / 2 + contentWidth / 2
    top := height / 2 - contentHeight / 2
    bottom := height / 2 + contentHeight / 2
    width := contentWidth
    height := contentHeight }

/-- `applyForceLayout(nodes, width, height, contentRect, strength)`:
early return at `strength <= 0`; otherwise snapshot and zero all
velocities, run the force iterations with velocity limiting, blend the
fresh velocities 0.7/0.3 against the snapshot and enforce boundaries. -/
def applyForceLayout (sq : ℚ → ℚ) (ns : List LNode) (width height : ℚ)
    (contentRect : Option Rect) (strength : ℚ) : List LNode :=
  if strength ≤ 0 then ns
  else
    let cfg := mkConfig width height strength
    let originalVelocities := ns.map fun n => (n.vx, n.vy)
    let ns := ns.map fun n => { n with vx := 0, vy := 0 }
    let rect := contentRect.getD (defaultRect width height)
    let ns := iterateN
      (fun ns => limitVelocities sq cfg (applyForces sq width height rect cfg ns))
      cfg.iterations ns
    (ns.zip originalVelocities).map fun p =>
      let blended := { p.1 with vx := p.1.vx * (7/10) + p.2.1 * (3/10),
                                vy := p.1.vy * (7/10) + p.2.2 * (3/10) }
      enforceBoundaries width height blended

/-- `updatePositions` (per node): integrate `position += velocity *
animationSpeed`, then, if any axis escaped the `radius*2` margins, clamp
with a damped bounce on each violated axis. Dragged nodes are skipped. -/
def updatePositionNode (width height animationSpeed : ℚ) (node : LNode) : LNode :=
  if node.isDragged then node
  else
    let node := { node with x := node.x + node.vx * animationSpeed,
                            y := node.y + node.vy * animationSpeed }
    let padding := node.radius * 2
    if node.x < padding ∨ node.x > width - padding ∨
       node.y < padding ∨ node.y > height - padding then
      let node :=
        if node.x < padding then { node with x := padding, vx := |node.vx| * (1/2) }
        else node
      let node :=
        if node.x > width - padding then
          { node with x := width - padding, vx := -|node.vx| * (1/2) }
        else node
      let node :=
        if node.y < padding then { node with y := padding, vy := |node.vy| * (1/2) }
        else node
      if node.y > height - padding then
        { node with y := height - padding, vy := -|node.vy| * (1/2) }
      else node
    else node

/-- `updatePositions(nodes, width, height, animationSpeed)`. -/
def updatePositions (ns : List LNode) (width height animationSpeed : ℚ) : List LNode :=
  ns.map (updatePositionNode width height animationSpeed)

/-! #### Helper lemmas about list indexing -/

theorem updIdx_getElem?_ne (ns : List LNode) (i k : Nat) (f : LNode → LNode)
    (h : i ≠ k) : (updIdx ns i f)[k]? = ns[k]? := by
  induction ns generalizing i k with
  | nil => simp [updIdx]
  | cons n rest ih =>
    cases i with
    | zero =>
      cases k with
      | zero => exact absurd rfl h
      | succ k => simp [updIdx]
    | succ i =>
      cases k with
      | zero => simp [updIdx]
      | succ k =>
        simp only [updIdx, List.getElem?_cons_succ]
        exact ih i k (fun hik => h (by rw [hik]))

theorem updIdx_getElem?_eq (ns : List LNode) (k : Nat) (f : LNode → LNode) :
    (updIdx ns k f)[k]? = ns[k]?.map f := by
  induction ns generalizing k with
  | nil => simp [updIdx]
  | cons n rest ih =>
    cases k with
    | zero => simp [updIdx]
    | succ k => simpa [updIdx] using ih k

theorem getElem?_zip (l₁ : List LNode) (l₂ : List (ℚ × ℚ)) (k : Nat) (a : LNode)
    (b : ℚ × ℚ) (h₁ : l₁[k]? = some a) (h₂ : l₂[k]? = some b) :
    (l₁.zip l₂)[k]? = some (a, b) := by
  induction l₁ generalizing l₂ k with
  | nil => simp at h₁
  | cons x xs ih =>
    cases l₂ with
    | nil => simp at h₂
    | cons y ys =>
      cases k with
      | zero => simp_all
      | succ k =>
        simp only [List.getElem?_cons_succ] at h₁ h₂
        simpa using ih ys k h₁ h₂

/-! #### The layout pass never applies forces to a dragged node

The force-accumulation phase leaves a dragged node's (zeroed) velocity at
zero; the blend and boundary phases still rewrite it. -/

theorem repulsePair_preserve (sq : ℚ → ℚ) (cfg : LayoutConfig) (a b k : Nat)
    (ns : List LNode) (n : LNode) (hget : ns[k]? = some n)
    (hd : n.isDragged = true) (hak : a ≠ k) :
    (repulsePair sq cfg a b ns)[k]? = some n := by
  unfold repulsePair
  dsimp only
  by_cases hbk : b = k
  · have : getIdx ns b = n := by simp [getIdx, hbk, hget]
    simp [this, hd, hget]
  · split
    · exact hget
    · split
      · rw [updIdx_getElem?_ne _ _ _ _ hbk, updIdx_getElem?_ne _ _ _ _ hak]
        exact hget
      · exact hget

theorem iterFrom_preserve (step : Nat → List LNode → List LNode)
    (P : List LNode → Prop)
    (hstep : ∀ b ns, P ns → P (step b ns)) :
    ∀ fuel b ns, P ns → P (iterFrom step fuel b ns) := by
  intro fuel
  induction fuel with
  | zero => intro b ns h; exact h
  | succ fuel ih => intro b ns h; exact ih (b + 1) (step b ns) (hstep b ns h)

theorem applyNodeRepulsion_preserve (sq : ℚ → ℚ) (cfg : LayoutConfig) (a k : Nat)
    (ns : List LNode) (n : LNode) (hget : ns[k]? = some n)
    (hd : n.isDragged = true) (hak : a ≠ k) :
    (applyNodeRepulsion sq cfg a ns)[k]? = some n := by
  unfold applyNodeRepulsion
  exact iterFrom_preserve _ (fun ns => ns[k]? = some n)
    (fun b ns h => repulsePair_preserve sq cfg a b k ns n h hd hak) _ _ _ hget

theorem attractPair_preserve (sq : ℚ → ℚ) (cfg : LayoutConfig) (i j k : Nat)
    (ns : List LNode) (n : LNode) (hget : ns[k]? = some n)
    (hd : n.isDragged = true) (hik : i ≠ k) :
    (attractPair sq cfg i j ns)[k]? = some n := by
  unfold attractPair
  dsimp only
  by_cases hjk : j = k
  · have : getIdx ns j = n := by simp [getIdx, hjk, hget]
    simp [this, hd, hget]
  · split
    · exact hget
    · rw [updIdx_getElem?_ne _ _ _ _ hjk, updIdx_getElem?_ne _ _ _ _ hik]
      exact hget

theorem foldl_attract_preserve (sq : ℚ → ℚ) (cfg : LayoutConfig) (i k : Nat)
    (n : LNode) (hd : n.isDragged = true) (hik : i ≠ k) :
    ∀ (js : List Nat) (ns : List LNode), ns[k]? = some n →
      (js.foldl (fun ns j => attractPair sq cfg i j ns) ns)[k]? = some n := by
  intro js
  induction js with
  | nil => intro ns h; exact h
  | cons j js ih =>
    intro ns h
    exact ih _ (attractPair_preserve sq cfg i j k ns n h hd hik)

theorem applyConnectionAttractions_preserve (sq : ℚ → ℚ) (cfg : LayoutConfig)
    (k : Nat) (ns : List LNode) (n : LNode) (hget : ns[k]? = some n)
    (hd : n.isDragged = true) :
    (applyConnectionAttractions sq cfg ns)[k]? = some n := by
  unfold applyConnectionAttractions
  refine iterFrom_preserve _ (fun ns => ns[k]? = some n) ?_ _ _ _ hget
  intro i ns h
  dsimp only
  by_cases hik : i = k
  · have : getIdx ns i = n := by simp [getIdx, hik, h]
    simp [this, hd, h]
  · split
    · exact h
    · exact foldl_attract_preserve sq cfg i k n hd hik _ ns h

theorem applyForces_preserve (sq : ℚ → ℚ) (width height : ℚ) (rect : Rect)
    (cfg : LayoutConfig) (k : Nat) (ns : List LNode) (n : LNode)
    (hget : ns[k]? = some n) (hd : n.isDragged = true) :
    (applyForces sq width height rect cfg ns)[k]? = some n := by
  unfold applyForces
  dsimp only
  refine applyConnectionAttractions_preserve sq cfg k _ n ?_ hd
  refine iterFrom_preserve _ (fun ns => ns[k]? = some n) ?_ _ _ _ hget
  intro a ns h
  dsimp only
  by_cases hak : a = k
  · have : getIdx ns a = n := by simp [getIdx, hak, h]
    simp [this, hd, h]
  · split
    · exact h
    · refine applyNodeRepulsion_preserve sq cfg a k _ n ?_ hd hak
      rw [updIdx_getElem?_ne _ _ _ _ hak, updIdx_getElem?_ne _ _ _ _ hak]
      exact h

theorem limitVelocityNode_zero (sq : ℚ → ℚ) (cfg : LayoutConfig) (n : LNode)
    (hvx : n.vx = 0) (hvy : n.vy = 0) : limitVelocityNode sq cfg n = n := by
  unfold limitVelocityNode
  dsimp only
  cases n with
  | mk x y vx vy radius isDragged connections =>
    simp only at hvx hvy
    subst hvx hvy
    split <;> simp

theorem limitVelocities_preserve (sq : ℚ → ℚ) (cfg : LayoutConfig) (k : Nat)
    (ns : List LNode) (n : LNode) (hget : ns[k]? = some n)
    (hvx : n.vx = 0) (hvy : n.vy = 0) :
    (limitVelocities sq cfg ns)[k]? = some n := by
  unfold limitVelocities
  rw [List.getElem?_map, hget, Option.map_some', limitVelocityNode_zero sq cfg n hvx hvy]

theorem iterateN_preserve (f : List LNode → List LNode) (P : List LNode → Prop)
    (hf : ∀ ns, P ns → P (f ns)) :
    ∀ iters ns, P ns → P (iterateN f iters ns) := by
  intro iters
  induction iters with
  | zero => intro ns h; exact h
  | succ m ih => intro ns h; exact ih (f ns) (hf ns h)

/-! #### Claim C1 -/

/-- Claim C1 (amended): the force-accumulation phase of `applyForceLayout`
never touches a dragged entity — but the pass still rewrites its velocity:
the snapshot/zero step zeroes it and the blend step then leaves
`0.3 × original`, and the extra boundary enforcement applies to dragged
entities as well (clamping position with a velocity bounce when within
`radius*2` of an edge). Precisely, at any positive strength the dragged
node's final state is `enforceBoundaries` applied to its original state
with velocity scaled by `0.3`. -/
theorem applyForceLayout_dragged (sq : ℚ → ℚ) (ns : List LNode)
    (width height : ℚ) (contentRect : Option Rect) (strength : ℚ) (k : Nat)
    (n : LNode) (hget : ns[k]? = some n) (hd : n.isDragged = true) :
    (applyForceLayout sq ns width height contentRect strength)[k]? =
      some (if strength ≤ 0 then n
            else enforceBoundaries width height
              { n with vx := n.vx * (3/10), vy := n.vy * (3/10) }) := by
  unfold applyForceLayout
  split
  · simp_all
  · next hs =>
    dsimp only
    have hz : (ns.map fun n => { n with vx := 0, vy := 0 : LNode })[k]? =
        some { n with vx := 0, vy := 0 } := by
      rw [List.getElem?_map, hget]; rfl
    have hiter :
        (iterateN (fun ns => limitVelocities sq (mkConfig width height strength)
            (applyForces sq width height
              (contentRect.getD (defaultRect width height))
              (mkConfig width height strength) ns))
          (mkConfig width height strength).iterations
          (ns.map fun n => { n with vx := 0, vy := 0 }))[k]? =
        some { n with vx := 0, vy := 0 } := by
      refine iterateN_preserve _ (fun s => s[k]? = some { n with vx := 0, vy := 0 })
        ?_ _ _ hz
      intro s hs'
      refine limitVelocities_preserve _ _ _ _ _ ?_ rfl rfl
      exact applyForces_preserve _ _ _ _ _ _ _ _ hs' hd
    have horig : (ns.map fun n => (n.vx, n.vy))[k]? = some (n.vx, n.vy) := by
      rw [List.getElem?_map, hget]; rfl
    rw [List.getElem?_map, getElem?_zip _ _ _ _ _ hiter horig]
    dsimp only [Option.map_some']
    congr 2
    cases n with
    | mk x y vx vy radius isDragged connections =>
      simp only [LNode.mk.injEq, and_true, true_and]
      constructor <;> ring

/-- Claim C1 witness: the amended characterization evaluated on a concrete
dragged node. -/
theorem applyForceLayout_dragged_witness :
    (applyForceLayout (fun _ => 0) [⟨0, 100, 1, 2, 5, true, []⟩]
        1000 1000 none 1)[0]? =
      some (if (1:ℚ) ≤ 0 then ⟨0, 100, 1, 2, 5, true, []⟩
            else enforceBoundaries 1000 1000
              { LNode.mk 0 100 1 2 5 true [] with
                  vx := 1 * (3/10), vy := 2 * (3/10) }) :=
  applyForceLayout_dragged (fun _ => 0) _ 1000 1000 none 1 0
    ⟨0, 100, 1, 2, 5, true, []⟩ rfl rfl

/-- Claim C1 counterexample: a dragged node with velocity `(1, 2)` at
`x = 0` has its velocity rewritten (to `(3/20, 3/5)`) and its position
clamped (to `x = 10`) by a strength-1 layout pass, contradicting the claim
that the pass never writes a dragged entity's velocity or position. -/
theorem applyForceLayout_dragged_counterexample :
    applyForceLayout (fun _ => 0) [⟨0, 100, 1, 2, 5, true, []⟩]
        1000 1000 none 1 =
      [⟨10, 100, 3/20, 3/5, 5, true, []⟩] ∧
    ((3 : ℚ)/20 ≠ 1 ∧ (10 : ℚ) ≠ 0) := by
  refine ⟨?_, by norm_num⟩
  norm_num [applyForceLayout, mkConfig, iterateN, applyForces,
    applyConnectionAttractions, applyNodeRepulsion, iterFrom, repulsePair,
    attractPair, applyContentRepulsion, applyEdgeForces, limitVelocities,
    limitVelocityNode, enforceBoundaries, defaultRect, getIdx, updIdx,
    distOr1, abs, max_def]

/-! #### Claim C3 -/

/-- Claim C3 (amended): after `updatePositions`, every NON-dragged entity's
position lies in `[radius*2, dimension - radius*2]` on both axes for any
input velocity, provided the canvas admits the margins
(`4*radius ≤ width` and `4*radius ≤ height`). Dragged entities are skipped
by the pass entirely, so no such bound holds for them. -/
theorem updatePositions_bounds (ns : List LNode) (width height speed : ℚ)
    (k : Nat) (n : LNode) (hget : ns[k]? = some n) (hd : n.isDragged = false)
    (hw : 4 * n.radius ≤ width) (hh : 4 * n.radius ≤ height) :
    ∃ m : LNode, (updatePositions ns width height speed)[k]? = some m ∧
      m.radius = n.radius ∧
      n.radius * 2 ≤ m.x ∧ m.x ≤ width - n.radius * 2 ∧
      n.radius * 2 ≤ m.y ∧ m.y ≤ height - n.radius * 2 := by
  refine ⟨updatePositionNode width height speed n,
    by rw [updatePositions, List.getElem?_map, hget]; rfl, ?_⟩
  unfold updatePositionNode
  simp only [hd, Bool.false_eq_true, if_false]
  split_ifs <;> simp_all <;> and_intros <;> linarith

/-- Claim C3 witness: the amended bound evaluated on a concrete
non-dragged node pushed out of bounds by a large velocity. -/
theorem updatePositions_bounds_witness :
    ∃ m : LNode, (updatePositions [⟨500, 500, -99999, 99999, 5, false, []⟩]
        1000 1000 1)[0]? = some m ∧
      m.radius = 5 ∧
      (5 : ℚ) * 2 ≤ m.x ∧ m.x ≤ 1000 - 5 * 2 ∧
      (5 : ℚ) * 2 ≤ m.y ∧ m.y ≤ 1000 - 5 * 2 :=
  updatePositions_bounds _ 1000 1000 1 0 ⟨500, 500, -99999, 99999, 5, false, []⟩
    rfl rfl (by norm_num) (by norm_num)

/-- Claim C3 counterexample: a dragged entity is skipped by
`updatePositions`, so a dragged node at `x = radius = 5` (exactly what the
drag handler's `[radius, width - radius]` clamp can produce) stays at
`x = 5`, outside the claimed `[radius*2, width - radius*2]` band. -/
theorem updatePositions_counterexample :
    updatePositions [⟨5, 500, 0, 0, 5, true, []⟩] 1000 1000 (3/100) =
      [⟨5, 500, 0, 0, 5, true, []⟩] ∧ ¬ ((5 : ℚ) * 2 ≤ 5) := by
  refine ⟨by norm_num [updatePositions, updatePositionNode], by norm_num⟩

/-! #### Claim C7 -/

/-- Claim C7: invoking the layout pass with `strength = 0` is a no-op —
the guard `if (strength <= 0) return` short-circuits before the
snapshot/zero step, so no entity's velocity or position is mutated. -/
theorem applyForceLayout_strength_zero_noop (sq : ℚ → ℚ) (ns : List LNode)
    (width height : ℚ) (contentRect : Option Rect) :
    applyForceLayout sq ns width height contentRect 0 = ns := by
  simp [applyForceLayout]

/-! ### Network and pulse model (`node.js`, `network.js`)

Full node objects: identity is a stable `id` (object references become
ids), `connections` holds target ids, `pulses` the in-flight pulses owned
by the node. `processingPulses` is a JS number that only ever moves by
guarded `+1`/`-1` from `0`, hence a natural number. -/

inductive NodeType where
  | source
  | process
  | destination
deriving DecidableEq, Repr

structure Pulse where
  source : Nat
  target : Nat
  progress : ℚ
  speed : ℚ
deriving DecidableEq, Repr

structure Node where
  id : Nat
  x : ℚ
  y : ℚ
  radius : ℚ
  type : NodeType
  connections : List Nat
  pulses : List Pulse
  processingPulses : Nat
  active : Bool
  opacity : ℚ
  targetOpacity : ℚ
  activationTime : ℚ
  lastPulseTime : ℚ
  pulseInterval : ℚ
  isHovered : Bool
  isDragged : Bool
  vx : ℚ
  vy : ℚ
deriving DecidableEq, Repr

/-- The mutable collection of node objects. -/
abbrev NetState := List Node

/-- Dereference a node id (object identity). -/
def getNode (s : NetState) (id : Nat) : Option Node :=
  s.find? (fun n => n.id = id)

/-- Mutate the node with the given id in place. -/
def setNode (s : NetState) (id : Nat) (f : Node → Node) : NetState :=
  s.map fun n => if n.id = id then f n else n

/-- The `Node` constructor: `new Node(x, y, radius, type)`, with the three
`Math.random()` draws (`active` coin, `activationTime`, `pulseInterval`)
made explicit. -/
def Node.make (x y radius : ℚ) (type : NodeType) (id : Nat)
    (rActive rAct rInt : ℚ) : Node :=
  let active := rActive > 1/2
  { id := id
    x := x
    y := y
    radius := radius
    type := type
    connections := []
    pulses := []
    processingPulses := 0
    active := active
    opacity := if active then 1 else 3/10
    targetOpacity := if active then 1 else 3/10
    activationTime := rAct * 5000
    lastPulseTime := 0
    pulseInterval := 1000 + rInt * 2000
    isHovered := false
    isDragged := false
    vx := 0
    vy := 0 }

/-- `Node.connect`: append the target unless already present (duplicate
suppression by object identity; self-connection is not checked here, the
wiring never attempts one). -/
def Node.connect (n : Node) (tid : Nat) : Node :=
  if tid ∈ n.connections then n
  else { n with connections := n.connections ++ [tid] }

/-! #### Network builder (`network.js`) -/

/-- `calculateOptimalNodeCount`: square-root scaling of the canvas area,
clamped to `[15, 50]`. -/
def calculateOptimalNodeCount (sq : ℚ → ℚ) (width height : ℚ) : Nat :=
  let area := width * height
  let baseCount : ℚ := 300
  max 15 (min 50 (⌊baseCount * sq area / 1500⌋.toNat))

/-- Type assignment by creation order: first 20% source, next 60% process,
remainder destination. -/
def nodeTypeFor (i numNodes : Nat) : NodeType :=
  if (i : ℚ) < (numNodes : ℚ) * (2/10) then .source
  else if (i : ℚ) < (numNodes : ℚ) * (8/10) then .process
  else .destination

/-- The per-node `Math.random()` draws consumed by `createNodes`. -/
structure NodeDraws where
  rx : ℚ
  ry : ℚ
  rr : ℚ
  rActive : ℚ
  rAct : ℚ
  rInt : ℚ

/-- `createNodes`: nodes in creation order, ids `0 .. numNodes-1`. -/
def createNodes (numNodes : Nat) (width height : ℚ)
    (draws : Nat → NodeDraws) : NetState :=
  (List.range numNodes).map fun i =>
    let d := draws i
    Node.make (d.rx * width) (d.ry * height) (5 + d.rr * 8)
      (nodeTypeFor i numNodes) i d.rActive d.rAct d.rInt

/-- Draws consumed when wiring one source node. -/
structure SourceDraws where
  nConn : Nat
  pick : Nat → Nat

/-- Draws consumed when wiring one process node. -/
structure ProcDraws where
  nProc : Nat
  procPick : Nat → Nat
  nDest : Nat
  destPick : Nat → Nat

/-- `source.connect(target)` through the state. -/
def connectIds (s : NetState) (sid tid : Nat) : NetState :=
  setNode s sid (fun n => n.connect tid)

/-- One connection loop `for (i = 0; i < count && i < targets.length; i++)`
picking `targets[floor(random * targets.length)]` each round. -/
def wirePicks (s : NetState) (sid : Nat) (targets : List Nat) (count : Nat)
    (pick : Nat → Nat) : NetState :=
  (List.range (min count targets.length)).foldl
    (fun s i =>
      match targets[(pick i) % targets.length]? with
      | some tid => connectIds s sid tid
      | none => s) s

/-- `initializeConnections`: each source connects to 1–3 random processes;
each process to 0–1 other processes and 1–2 destinations. The type-filtered
id lists are computed once up front, as in the JS. -/
def initializeConnections (sd : Nat → SourceDraws) (pd : Nat → ProcDraws)
    (s : NetState) : NetState :=
  let sources := (s.filter (fun n => n.type = .source)).map (fun n => n.id)
  let processes := (s.filter (fun n => n.type = .process)).map (fun n => n.id)
  let destinations := (s.filter (fun n => n.type = .destination)).map (fun n => n.id)
  let s := sources.enum.foldl
    (fun s p => wirePicks s p.2 processes (1 + (sd p.1).nConn % 3) (sd p.1).pick) s
  processes.enum.foldl
    (fun s p =>
      let otherProcesses := processes.filter (fun q => q ≠ p.2)
      let s := wirePicks s p.2 otherProcesses ((pd p.1).nProc % 2) (pd p.1).procPick
      wirePicks s p.2 destinations (1 + (pd p.1).nDest % 2) (pd p.1).destPick) s

/-- One pruning pass of `removeUnconnectedNodes`: the incoming-reference
map is computed once at pass start; every non-source node unreferenced in
that snapshot is removed, and references to removed nodes are stripped
from the survivors. Returns the new node array (the JS mutates in place
and reports whether anything was removed; here removal is detected by
comparing lengths). -/
def removeUnconnectedNodes (s : NetState) : NetState :=
  let referenced := (s.map (fun n => n.connections)).flatten
  let removed := (s.filter (fun n =>
    ¬ (n.type = NodeType.source ∨ n.id ∈ referenced))).map (fun n => n.id)
  (s.filter (fun n => n.type = NodeType.source ∨ n.id ∈ referenced)).map fun n =>
    { n with connections := n.connections.filter (fun t => t ∉ removed) }

/-- `optimizeNetwork`: up to `MAX_ITERATIONS = 5` pruning passes, stopping
early when a pass removes nothing. -/
def optimizeGo : Nat → NetState → NetState
  | 0, s => s
  | k + 1, s =>
    let s' := removeUnconnectedNodes s
    if s'.length = s.length then s'
    else optimizeGo k s'

def optimizeNetwork (s : NetState) : NetState :=
  optimizeGo 5 s

/-- `createNetwork(width, height)`. -/
def createNetwork (sq : ℚ → ℚ) (draws : Nat → NodeDraws)
    (sd : Nat → SourceDraws) (pd : Nat → ProcDraws)
    (width height : ℚ) : NetState :=
  let numNodes := calculateOptimalNodeCount sq width height
  let nodes := createNodes numNodes width height draws
  let nodes := initializeConnections sd pd nodes
  optimizeNetwork nodes

/-! #### Connection-list invariants (claims C8 and C2) -/

/-- Every node's connection list is duplicate-free and never references
the node itself. -/
def ConnInv (s : NetState) : Prop :=
  ∀ n ∈ s, n.connections.Nodup ∧ n.id ∉ n.connections

theorem connect_id (n : Node) (tid : Nat) : (n.connect tid).id = n.id := by
  unfold Node.connect
  split <;> rfl

theorem connect_connInv (n : Node) (tid : Nat) (hnd : n.connections.Nodup)
    (hns : n.id ∉ n.connections) (hne : tid ≠ n.id) :
    (n.connect tid).connections.Nodup ∧ n.id ∉ (n.connect tid).connections := by
  unfold Node.connect
  split
  · exact ⟨hnd, hns⟩
  · next hmem =>
    refine ⟨?_, ?_⟩
    · simp [List.nodup_append, hnd, hmem]
    · simp [hns, Ne.symm hne]

theorem connectIds_connInv (s : NetState) (sid tid : Nat) (hinv : ConnInv s)
    (hne : tid ≠ sid) : ConnInv (connectIds s sid tid) := by
  intro m hm
  unfold connectIds setNode at hm
  rw [List.mem_map] at hm
  obtain ⟨n, hn, rfl⟩ := hm
  by_cases h : n.id = sid
  · simp only [h, if_true]
    rw [connect_id]
    exact connect_connInv n tid (hinv n hn).1 (hinv n hn).2 (h ▸ hne)
  · simp only [h, if_false]
    exact hinv n hn

theorem wirePicks_connInv (sid : Nat) (targets : List Nat) (count : Nat)
    (pick : Nat → Nat) (htargets : ∀ t ∈ targets, t ≠ sid) :
    ∀ s, ConnInv s → ConnInv (wirePicks s sid targets count pick) := by
  unfold wirePicks
  generalize List.range (min count targets.length) = L
  induction L with
  | nil => intro s h; exact h
  | cons i L ih =>
    intro s h
    rw [List.foldl_cons]
    apply ih
    cases hidx : targets[pick i % targets.length]? with
    | none => simpa only [hidx] using h
    | some tid =>
      simp only [hidx]
      exact connectIds_connInv s sid tid h
        (htargets tid (List.get?_mem (by rwa [List.get?_eq_getElem?])))

theorem foldl_connInv {α : Type} (step : NetState → α → NetState) :
    ∀ (L : List α) (Q : α → Prop), (∀ x ∈ L, Q x) →
      (∀ x s, Q x → ConnInv s → ConnInv (step s x)) →
      ∀ s, ConnInv s → ConnInv (L.foldl step s) := by
  intro L
  induction L with
  | nil => intro Q _ _ s h; exact h
  | cons x L ih =>
    intro Q hQ hstep s h
    rw [List.foldl_cons]
    exact ih Q (fun y hy => hQ y (List.mem_cons_of_mem _ hy)) hstep _
      (hstep x s (hQ x (List.mem_cons_self _ _)) h)

/-- Ids of nodes of two different types are distinct, given globally
distinct ids. -/
theorem typeIds_ne (s : NetState) (hnd : (s.map (fun n => n.id)).Nodup)
    (ta tb : NodeType) (hab : ta ≠ tb) :
    ∀ a ∈ (s.filter (fun n => n.type = ta)).map (fun n => n.id),
      ∀ b ∈ (s.filter (fun n => n.type = tb)).map (fun n => n.id), a ≠ b := by
  intro a ha b hb heq
  rw [List.mem_map] at ha hb
  obtain ⟨na, hna, rfl⟩ := ha
  obtain ⟨nb, hnb, hb'⟩ := hb
  rw [List.mem_filter] at hna hnb
  have hid : na.id = nb.id := by rw [hb', heq]
  have : na = nb :=
    List.inj_on_of_nodup_map hnd hna.1 hnb.1 hid
  apply hab
  have h1 : na.type = ta := by simpa using hna.2
  have h2 : nb.type = tb := by simpa using hnb.2
  rw [← h1, this, h2]

theorem initializeConnections_connInv (sd : Nat → SourceDraws)
    (pd : Nat → ProcDraws) (s : NetState)
    (hnd : (s.map (fun n => n.id)).Nodup) (hinv : ConnInv s) :
    ConnInv (initializeConnections sd pd s) := by
  unfold initializeConnections
  dsimp only
  refine foldl_connInv _ _
    (fun p => p.2 ∈ (s.filter (fun n => n.type = .process)).map (fun n => n.id))
    (fun p hp => List.get?_mem (by
      rw [List.get?_eq_getElem?]
      exact (List.mem_enum_iff_getElem?.mp hp)))
    ?_ _ ?_
  · intro p st hp hst
    refine wirePicks_connInv p.2 _ _ _ ?_ _
      (wirePicks_connInv p.2 _ _ _ ?_ _ hst)
    · intro t ht
      exact typeIds_ne s hnd .destination .process (by simp) t ht p.2 hp
    · intro t ht
      rw [List.mem_filter] at ht
      simpa using ht.2
  · refine foldl_connInv _ _
      (fun p => p.2 ∈ (s.filter (fun n => n.type = .source)).map (fun n => n.id))
      (fun p hp => List.get?_mem (by
        rw [List.get?_eq_getElem?]
        exact (List.mem_enum_iff_getElem?.mp hp)))
      ?_ _ hinv
    intro p st hp hst
    refine wirePicks_connInv p.2 _ _ _ ?_ _ hst
    intro t ht
    exact typeIds_ne s hnd .process .source (by simp) t ht p.2 hp

theorem removeUnconnectedNodes_connInv (s : NetState) (hinv : ConnInv s) :
    ConnInv (removeUnconnectedNodes s) := by
  intro m hm
  unfold removeUnconnectedNodes at hm
  rw [List.mem_map] at hm
  obtain ⟨n, hn, rfl⟩ := hm
  have hns := hinv n (List.mem_of_mem_filter hn)
  exact ⟨hns.1.filter _, fun hc => hns.2 (List.mem_of_mem_filter hc)⟩

theorem optimizeGo_connInv : ∀ (k : Nat) (s : NetState), ConnInv s →
    ConnInv (optimizeGo k s) := by
  intro k
  induction k with
  | zero => intro s h; exact h
  | succ k ih =>
    intro s h
    unfold optimizeGo
    dsimp only
    split
    · exact removeUnconnectedNodes_connInv s h
    · exact ih _ (removeUnconnectedNodes_connInv s h)

theorem createNodes_map_id (numNodes : Nat) (width height : ℚ)
    (draws : Nat → NodeDraws) :
    (createNodes numNodes width height draws).map (fun n => n.id) =
      List.range numNodes := by
  unfold createNodes
  rw [List.map_map]
  have : ((fun n : Node => n.id) ∘ fun i =>
      Node.make ((draws i).rx * width) ((draws i).ry * height)
        (5 + (draws i).rr * 8) (nodeTypeFor i numNodes) i
        (draws i).rActive (draws i).rAct (draws i).rInt) = fun i => i :=
    funext fun i => rfl
  rw [this, List.map_id']

theorem createNodes_connInv (numNodes : Nat) (width height : ℚ)
    (draws : Nat → NodeDraws) :
    ConnInv (createNodes numNodes width height draws) := by
  intro n hn
  unfold createNodes at hn
  rw [List.mem_map] at hn
  obtain ⟨i, _, rfl⟩ := hn
  exact ⟨List.nodup_nil, List.not_mem_nil _⟩

/-- Helper: the full construction pipeline yields duplicate-free,
self-reference-free connection lists, for any draws. -/
theorem createNetwork_connInv (sq : ℚ → ℚ) (draws : Nat → NodeDraws)
    (sd : Nat → SourceDraws) (pd : Nat → ProcDraws) (width height : ℚ) :
    ConnInv (createNetwork sq draws sd pd width height) := by
  unfold createNetwork optimizeNetwork
  dsimp only
  apply optimizeGo_connInv
  apply initializeConnections_connInv
  · rw [createNodes_map_id]
    exact List.nodup_range _
  · exact createNodes_connInv _ _ _ _

/-! #### Claim C2 -/

theorem removeUnconnectedNodes_length (s : NetState) :
    (removeUnconnectedNodes s).length =
      (s.filter (fun n => n.type = NodeType.source ∨
        n.id ∈ (s.map (fun n => n.connections)).flatten)).length := by
  unfold removeUnconnectedNodes
  rw [List.length_map]

/-- If a pruning pass removes nothing, every non-source node is referenced
by some node's connection list. -/
theorem fixpoint_referenced (s : NetState)
    (hfix : (removeUnconnectedNodes s).length = s.length) :
    ∀ n ∈ s, n.type ≠ NodeType.source →
      n.id ∈ (s.map (fun n => n.connections)).flatten := by
  intro n hn hns
  by_contra href
  have hlt : (s.filter (fun n => n.type = NodeType.source ∨
      n.id ∈ (s.map (fun n => n.connections)).flatten)).length < s.length := by
    refine List.length_filter_lt_length_iff_exists.mpr ⟨n, hn, ?_⟩
    simp only [decide_eq_true_eq, Bool.not_eq_true]
    simpa [hns] using href
  rw [removeUnconnectedNodes_length] at hfix
  omega

/-- Claim C2 (amended): after `optimizeNetwork`, every retained non-source
entity has at least one incoming connection from another retained entity —
PROVIDED the bounded pruning loop actually converged, i.e. one further
pruning pass would remove nothing. The `MAX_ITERATIONS = 5` cap means
convergence is not guaranteed: a chain of six processes whose head is
unreferenced needs six cascading passes, and the sixth never runs (see the
counterexample). -/
theorem optimizeNetwork_incoming (s : NetState) (hconn : ConnInv s)
    (hfix : (removeUnconnectedNodes (optimizeNetwork s)).length =
      (optimizeNetwork s).length) :
    ∀ n ∈ optimizeNetwork s, n.type ≠ NodeType.source →
      ∃ m ∈ optimizeNetwork s, m.id ≠ n.id ∧ n.id ∈ m.connections := by
  intro n hn hns
  have href := fixpoint_referenced _ hfix n hn hns
  rw [List.mem_flatten] at href
  obtain ⟨l, hl, hnl⟩ := href
  rw [List.mem_map] at hl
  obtain ⟨m, hm, rfl⟩ := hl
  refine ⟨m, hm, ?_, hnl⟩
  intro hid
  have hminv := optimizeGo_connInv 5 s hconn m hm
  exact hminv.2 (hid ▸ hnl)

/-- A two-node network (source 0 → process 1) for the witness. -/
def c2wNet : NetState :=
  [(Node.make 0 0 5 NodeType.source 0 1 0 0).connect 1,
   Node.make 10 10 5 NodeType.process 1 1 0 0]

/-- Claim C2 witness: on the two-node network the pruning loop converges
and the retained process 1 indeed has an incoming connection from source 0. -/
theorem optimizeNetwork_incoming_witness :
    ∃ m ∈ optimizeNetwork c2wNet,
      m.id ≠ (Node.make 10 10 5 NodeType.process 1 1 0 0).id ∧
      (Node.make 10 10 5 NodeType.process 1 1 0 0).id ∈ m.connections :=
  optimizeNetwork_incoming c2wNet
    (by
      intro n hn
      simp only [c2wNet, Node.make, Node.connect] at hn
      norm_num at hn
      rcases hn with h | h <;> subst h <;> norm_num)
    (by norm_num [optimizeNetwork, optimizeGo, removeUnconnectedNodes,
      c2wNet, Node.make, Node.connect])
    (Node.make 10 10 5 NodeType.process 1 1 0 0)
    (by norm_num [optimizeNetwork, optimizeGo, removeUnconnectedNodes,
      c2wNet, Node.make, Node.connect])
    (by decide)

/-- Concrete draws for the C2 counterexample: a 60×60 canvas yields 15
nodes (3 sources, 9 processes, 3 destinations). All sources pick process 3;
processes 4–8 (wiring positions 1–5) each chain to the next process;
every process also picks destination 12. Process 4 ends up unreferenced and
the removal cascade 4, 5, 6, 7, 8 consumes all five pruning passes, leaving
process 9 with no incoming connection. -/
def c2sq : ℚ → ℚ := fun _ => 60

def c2draws : Nat → NodeDraws := fun _ => ⟨0, 0, 0, 1, 0, 0⟩

def c2sd : Nat → SourceDraws := fun _ => ⟨0, fun _ => 0⟩

def c2pd : Nat → ProcDraws := fun k =>
  if 1 ≤ k ∧ k ≤ 5 then ⟨1, fun _ => k, 0, fun _ => 0⟩
  else ⟨0, fun _ => 0, 0, fun _ => 0⟩

def c2net : NetState := createNetwork c2sq c2draws c2sd c2pd 60 60

/-- The type-assignment thresholds, restated over naturals (exact
rational/natural equivalence; this keeps the decision procedure for the
concrete counterexample inside natural-number arithmetic). -/
theorem nodeTypeFor_eq_nat (i num : Nat) :
    nodeTypeFor i num = (if 10 * i < num * 2 then NodeType.source
      else if 10 * i < num * 8 then NodeType.process
      else NodeType.destination) := by
  unfold nodeTypeFor
  have h2 : ((i:ℚ) < (num:ℚ) * (2/10)) ↔ (10 * i < num * 2) := by
    rw [show ((num:ℚ) * (2/10)) = ((num * 2 : ℕ) : ℚ) / 10 by push_cast; ring]
    rw [lt_div_iff₀ (by norm_num : (0:ℚ) < 10)]
    rw [show ((i:ℚ) * 10) = ((10 * i : ℕ) : ℚ) by push_cast; ring]
    exact_mod_cast Iff.rfl
  have h8 : ((i:ℚ) < (num:ℚ) * (8/10)) ↔ (10 * i < num * 8) := by
    rw [show ((num:ℚ) * (8/10)) = ((num * 8 : ℕ) : ℚ) / 10 by push_cast; ring]
    rw [lt_div_iff₀ (by norm_num : (0:ℚ) < 10)]
    rw [show ((i:ℚ) * 10) = ((10 * i : ℕ) : ℚ) by push_cast; ring]
    exact_mod_cast Iff.rfl
  rw [if_congr h2 rfl (if_congr h8 rfl rfl)]

/-- Claim C2 counterexample: on a wiring the randomized connection step can
produce, `createNetwork` retains process 9 with zero incoming connections —
the 5-pass cap of `optimizeNetwork` exhausts before the removal cascade
reaches it. -/
theorem optimizeNetwork_counterexample :
    (∃ n ∈ c2net, n.id = 9 ∧ n.type = NodeType.process) ∧
    (∀ m ∈ c2net, (9 : Nat) ∉ m.connections) := by
  have hcount : calculateOptimalNodeCount c2sq 60 60 = 15 := by
    norm_num [calculateOptimalNodeCount, c2sq]
  unfold c2net createNetwork
  rw [hcount]
  simp only [createNodes, nodeTypeFor_eq_nat]
  decide

/-! ### Pulse pool (`node.js` top matter, claim C9)

The pool recycles pulse object identities; every field of a reused pulse
is overwritten in `createPulse`, so the pool is modelled separately from
the simulation state, with an explicit allocation id standing for object
identity. -/

def MAX_PULSE_COUNT : Nat := 100

def PULSE_SPEED : ℚ := 23/1000

structure PoolPulse where
  allocId : Nat
  source : Nat
  target : Nat
  progress : ℚ
  speed : ℚ
deriving DecidableEq, Repr

/-- `createPulse(source, target, speed)`: reuse from the pool when it is
non-empty (JS pops from the array end; the list head plays that role),
otherwise allocate fresh (`nextAlloc` is the fresh-identity counter).
Returns the pulse and the updated pool/counter. -/
def createPulse (pool : List PoolPulse) (nextAlloc : Nat)
    (source target : Nat) (speed : ℚ) : PoolPulse × List PoolPulse × Nat :=
  match pool with
  | p :: rest =>
    ({ p with source := source, target := target, progress := 0, speed := speed },
      rest, nextAlloc)
  | [] => (⟨nextAlloc, source, target, 0, speed⟩, [], nextAlloc + 1)

/-- `recyclePulse(pulse)`: push back unless the pool already holds
`MAX_PULSE_COUNT` pulses, in which case the pulse is dropped. -/
def recyclePulse (pool : List PoolPulse) (p : PoolPulse) : List PoolPulse :=
  if pool.length < MAX_PULSE_COUNT then p :: pool else pool

/-! ### Pulse simulation (`node.js` methods)

`Math.random()` draws are explicit oracle inputs. -/

/-- Draws consumed by one `sendRandomImpulse` call: the emission coin
(`Math.random() > 0.3`), the connection index draw, and the speed draw. -/
structure SendDraws where
  r1 : ℚ
  idx : Nat
  rs : ℚ

/-- The mutation applied to the emitting node: push the new pulse
(progress 0) and decrement `processingPulses` when positive. -/
def emitPulse (selfId tid : Nat) (speed : ℚ) (n : Node) : Node :=
  { n with
    pulses := n.pulses ++ [⟨selfId, tid, 0, speed⟩],
    processingPulses :=
      if 0 < n.processingPulses then n.processingPulses - 1
      else n.processingPulses }

/-- `sendRandomImpulse()`: with a non-empty connection list and emission
coin above 0.3, pick a random connection; if its opacity exceeds 0.5 push
a new pulse (progress 0, speed `0.002 + random * PULSE_SPEED`) onto the
caller's active list and decrement `processingPulses` when positive. -/
def sendRandomImpulse (s : NetState) (selfId : Nat) (d : SendDraws) : NetState :=
  match getNode s selfId with
  | none => s
  | some self =>
    if 0 < self.connections.length ∧ d.r1 > 3/10 then
      match self.connections[d.idx % self.connections.length]? with
      | none => s
      | some tid =>
        match getNode s tid with
        | none => s
        | some tgt =>
          if tgt.opacity > 1/2 then
            setNode s selfId (emitPulse selfId tid (1/500 + d.rs * PULSE_SPEED))
          else s
    else s

/-- Draws consumed when one pulse completes inside `updatePulses`: the
forwarding coin (`Math.random() > 0.7`) and the nested send draws. -/
structure PulseOracle where
  rFwd : ℚ
  send : SendDraws

/-- The frame-rate-normalised progress advance of `updatePulses`. -/
def advP (dt : ℚ) (p : Pulse) : Pulse :=
  { p with progress := p.progress + p.speed * (dt / (16667/1000)) }

/-- On pulse arrival: `if (pulse.target.active) { if (… "process" &&
Math.random() > 0.7) pulse.target.sendRandomImpulse(); }` — the target was
just snapped active, so only the process/coin test remains. -/
def forwardAtTarget (tgtId : Nat) (rFwd : ℚ) (d : SendDraws)
    (s : NetState) : NetState :=
  match getNode s tgtId with
  | some t =>
    if t.type = NodeType.process ∧ rFwd > 7/10 then
      sendRandomImpulse s tgtId d
    else s
  | none => s

/-- One iteration (index `i`) of the `updatePulses` loop: advance the
pulse's progress in place; on reaching 1, increment the target's pending
counter, snap it active (opacity and target opacity to 1), let a process
target forward with probability 0.3, recycle the pulse object (pool
modelled separately) and remove it from the owner's list. -/
def stepIndex (selfId : Nat) (dt : ℚ) (o : PulseOracle) (i : Nat)
    (s : NetState) : NetState :=
  match getNode s selfId with
  | none => s
  | some self =>
    match self.pulses[i]? with
    | none => s
    | some p =>
      let p' := advP dt p
      let s := setNode s selfId (fun n => { n with pulses := n.pulses.set i p' })
      if p'.progress ≥ 1 then
        let s := setNode s p.target (fun t =>
          { t with processingPulses := t.processingPulses + 1,
                   active := true, opacity := 1, targetOpacity := 1 })
        let s := forwardAtTarget p.target o.rFwd o.send s
        setNode s selfId (fun n => { n with pulses := n.pulses.eraseIdx i })
      else s

/-- The `for (let i = this.pulses.length - 1; i >= 0; i--)` loop:
`updatePulsesLoop … (fuel+1)` processes index `fuel`, then recurses. -/
def updatePulsesLoop (selfId : Nat) (dt : ℚ) (os : Nat → PulseOracle) :
    Nat → NetState → NetState
  | 0, s => s
  | i + 1, s => updatePulsesLoop selfId dt os i (stepIndex selfId dt (os i) i s)

/-- `updatePulses(deltaTime)` on the node `selfId`. -/
def updatePulses (s : NetState) (selfId : Nat) (dt : ℚ)
    (os : Nat → PulseOracle) : NetState :=
  match getNode s selfId with
  | none => s
  | some self => updatePulsesLoop selfId dt os self.pulses.length s

/-- JS `%` (truncated remainder, as `a - b * trunc(a / b)`). -/
def jsMod (a b : ℚ) : ℚ :=
  a - b * ((if 0 ≤ a / b then ⌊a / b⌋ else -⌊-(a / b)⌋) : ℤ)

/-- Draws consumed by one `update(time, deltaTime)` call. -/
structure UpdateOracle where
  send : SendDraws
  rProc : ℚ
  pulse : Nat → PulseOracle

/-- The opacity/phase part of `Node.update`: phase-driven target opacity
(active 70% of a 15 s cycle, hover/drag forcing 1), exponential opacity
relaxation with snap inside 0.01, derived `active` flag. -/
def applyOpacityPhase (s : NetState) (selfId : Nat) (time : ℚ)
    (self : Node) : NetState :=
  let cycleDuration : ℚ := 15000
  let cyclePosition := jsMod time cycleDuration / cycleDuration
  let nodePhase := self.activationTime / 5000
  let nodePosition := jsMod (cyclePosition + nodePhase) 1
  let shouldBeActive := nodePosition < 7/10
  let target1 : ℚ := if shouldBeActive then 1 else 3/10
  let target2 : ℚ := if self.isHovered ∨ self.isDragged then 1 else target1
  let newOpacity :=
    if |self.opacity - target2| > 1/100 then
      self.opacity + (target2 - self.opacity) * (1/20)
    else target2
  let newActive := newOpacity > 7/10
  setNode s selfId (fun n =>
    { n with targetOpacity := target2, opacity := newOpacity, active := newActive })

/-- `Node.update(time, deltaTime)`: the opacity phase, then source
emission on interval expiry (reading the freshly written `active` flag
back from the node, as the JS does), probabilistic process forwarding,
then pulse advancement. -/
def nodeUpdate (s : NetState) (selfId : Nat) (time dt : ℚ)
    (o : UpdateOracle) : NetState :=
  match getNode s selfId with
  | none => s
  | some self =>
    let s := applyOpacityPhase s selfId time self
    let s :=
      match getNode s selfId with
      | some self2 =>
        if self2.active = true ∧ self.type = NodeType.source ∧
            time - self.lastPulseTime > self.pulseInterval then
          sendRandomImpulse
            (setNode s selfId (fun n => { n with lastPulseTime := time }))
            selfId o.send
        else s
      | none => s
    let s :=
      if self.type = NodeType.process ∧ 0 < self.processingPulses ∧
          o.rProc > 49/50 then
        sendRandomImpulse s selfId o.send
      else s
    updatePulses s selfId dt o.pulse

/-! ### The simulation step relation

A reachable-state step is either one `node.update(time, dt)` call (the
render loop runs one per node per frame; input-handler and layout-engine
effects are covered by `physics`, which may rewrite exactly the fields
those code paths write: position, velocity, hover and drag flags). -/

/-- `f` only writes the physics/interaction fields `x`, `y`, `vx`, `vy`,
`isHovered`, `isDragged`. -/
def PhysWrite (f : Node → Node) : Prop :=
  ∀ n : Node, (f n).id = n.id ∧ (f n).type = n.type ∧
    (f n).radius = n.radius ∧ (f n).connections = n.connections ∧
    (f n).pulses = n.pulses ∧ (f n).processingPulses = n.processingPulses ∧
    (f n).active = n.active ∧ (f n).opacity = n.opacity ∧
    (f n).targetOpacity = n.targetOpacity ∧
    (f n).activationTime = n.activationTime ∧
    (f n).lastPulseTime = n.lastPulseTime ∧
    (f n).pulseInterval = n.pulseInterval

inductive Step : NetState → NetState → Prop where
  | update (s : NetState) (selfId : Nat) (time dt : ℚ) (o : UpdateOracle) :
      Step s (nodeUpdate s selfId time dt o)
  | physics (s : NetState) (f : Node → Node) (hf : PhysWrite f) :
      Step s (s.map f)

/-- Reachability from a post-construction state. -/
def Reachable : NetState → NetState → Prop :=
  Relation.ReflTransGen Step

/-! #### Claim C9 -/

/-- Claim C9: the reuse pool never exceeds `MAX_PULSE_COUNT` (100):
recycling into a pool already at capacity drops the pulse (and never
errors), so pool capacity only caps retained-for-reuse pulses, and
`createPulse` on a non-empty pool returns one of the pooled object
identities (popping it) without consuming a fresh allocation. -/
theorem pulsePool_bounded :
    (∀ (pool : List PoolPulse) (p : PoolPulse),
      pool.length ≤ MAX_PULSE_COUNT →
      (recyclePulse pool p).length ≤ MAX_PULSE_COUNT) ∧
    (∀ (pool : List PoolPulse) (p : PoolPulse),
      pool.length = MAX_PULSE_COUNT → recyclePulse pool p = pool) ∧
    (∀ (pool : List PoolPulse) (nextAlloc source target : Nat) (speed : ℚ),
      pool ≠ [] →
      (createPulse pool nextAlloc source target speed).1.allocId ∈
        pool.map (fun q => q.allocId) ∧
      (createPulse pool nextAlloc source target speed).2.2 = nextAlloc ∧
      (createPulse pool nextAlloc source target speed).2.1.length + 1 =
        pool.length) := by
  refine ⟨?_, ?_, ?_⟩
  · intro pool p hle
    unfold recyclePulse
    split
    · next hlt => simpa using hlt
    · exact hle
  · intro pool p heq
    unfold recyclePulse
    rw [if_neg (by omega)]
  · intro pool nextAlloc source target speed hne
    cases pool with
    | nil => exact absurd rfl hne
    | cons q rest => exact ⟨by simp [createPulse], rfl, by simp [createPulse]⟩

/-- Claim C9 witness: a full pool drops the recycled pulse; a singleton
pool hands back its pooled identity without advancing the allocator. -/
theorem pulsePool_bounded_witness :
    ((recyclePulse (List.replicate 100 ⟨0, 0, 0, 0, 0⟩) ⟨1, 2, 3, 0, 0⟩).length ≤
      MAX_PULSE_COUNT) ∧
    (recyclePulse (List.replicate 100 ⟨0, 0, 0, 0, 0⟩) ⟨1, 2, 3, 0, 0⟩ =
      List.replicate 100 ⟨0, 0, 0, 0, 0⟩) ∧
    ((createPulse [⟨7, 0, 0, 0, 0⟩] 42 1 2 (1/100)).1.allocId ∈
      [PoolPulse.mk 7 0 0 0 0].map (fun q => q.allocId) ∧
     (createPulse [⟨7, 0, 0, 0, 0⟩] 42 1 2 (1/100)).2.2 = 42 ∧
     (createPulse [⟨7, 0, 0, 0, 0⟩] 42 1 2 (1/100)).2.1.length + 1 = 1) :=
  ⟨pulsePool_bounded.1 _ _ (by simp [MAX_PULSE_COUNT]),
   pulsePool_bounded.2.1 _ _ (by simp [MAX_PULSE_COUNT]),
   pulsePool_bounded.2.2 _ 42 1 2 (1/100) (by simp)⟩

/-! #### Navigation lemmas for the node state -/

theorem getNode_id (s : NetState) (j : Nat) (n : Node)
    (h : getNode s j = some n) : n.id = j := by
  unfold getNode at h
  have := List.find?_some h
  simpa using this

theorem getNode_mem (s : NetState) (j : Nat) (n : Node)
    (h : getNode s j = some n) : n ∈ s :=
  List.mem_of_find?_eq_some h

theorem getNode_setNode (s : NetState) (id j : Nat) (f : Node → Node)
    (hid : ∀ n, (f n).id = n.id) :
    getNode (setNode s id f) j =
      (getNode s j).map (fun n => if n.id = id then f n else n) := by
  unfold getNode setNode
  induction s with
  | nil => rfl
  | cons n rest ih =>
    have hgn : (if n.id = id then f n else n).id = n.id := by
      split
      · exact hid n
      · rfl
    by_cases h : n.id = j
    · rw [List.map_cons,
        List.find?_cons_of_pos _ (by simp only [hgn, decide_eq_true_eq]; exact h),
        List.find?_cons_of_pos _ (by simp only [decide_eq_true_eq]; exact h)]
      rfl
    · rw [List.map_cons,
        List.find?_cons_of_neg _ (by simp only [hgn, decide_eq_true_eq]; exact h),
        List.find?_cons_of_neg _ (by simp only [decide_eq_true_eq]; exact h)]
      exact ih

theorem getNode_setNode_self (s : NetState) (id : Nat) (f : Node → Node)
    (hid : ∀ n, (f n).id = n.id) (n : Node) (h : getNode s id = some n) :
    getNode (setNode s id f) id = some (f n) := by
  rw [getNode_setNode s id id f hid, h, Option.map_some']
  rw [if_pos (getNode_id s id n h)]

theorem getNode_setNode_ne (s : NetState) (id j : Nat) (f : Node → Node)
    (hid : ∀ n, (f n).id = n.id) (hne : j ≠ id) :
    getNode (setNode s id f) j = getNode s j := by
  rw [getNode_setNode s id j f hid]
  cases hg : getNode s j with
  | none => rfl
  | some n =>
    rw [Option.map_some', if_neg]
    rw [getNode_id s j n hg]
    exact hne

/-! #### The animation never rewrites ids, types or connection lists -/

/-- The structural skeleton of the state: ids, kinds and edges. -/
def connSkel (s : NetState) : List (Nat × NodeType × List Nat) :=
  s.map fun n => (n.id, n.type, n.connections)

theorem setNode_connSkel (s : NetState) (id : Nat) (f : Node → Node)
    (hid : ∀ n, (f n).id = n.id) (htype : ∀ n, (f n).type = n.type)
    (hconn : ∀ n, (f n).connections = n.connections) :
    connSkel (setNode s id f) = connSkel s := by
  unfold connSkel setNode
  rw [List.map_map]
  refine List.map_congr_left ?_
  intro n _
  simp only [Function.comp_apply]
  split
  · rw [hid, htype, hconn]
  · rfl

theorem sendRandomImpulse_connSkel (s : NetState) (selfId : Nat) (d : SendDraws) :
    connSkel (sendRandomImpulse s selfId d) = connSkel s := by
  unfold sendRandomImpulse
  repeat' (first | split | dsimp only)
  all_goals
    first
      | rfl
      | refine setNode_connSkel _ _ _ ?_ ?_ ?_ <;> exact fun n => rfl

theorem forwardAtTarget_connSkel (tgtId : Nat) (rFwd : ℚ) (d : SendDraws)
    (s : NetState) : connSkel (forwardAtTarget tgtId rFwd d s) = connSkel s := by
  unfold forwardAtTarget
  split
  · split
    · rw [sendRandomImpulse_connSkel]
    · rfl
  · rfl

theorem stepIndex_connSkel (selfId : Nat) (dt : ℚ) (o : PulseOracle) (i : Nat)
    (s : NetState) : connSkel (stepIndex selfId dt o i s) = connSkel s := by
  unfold stepIndex
  repeat' (first | split | dsimp only)
  all_goals simp (disch := intro n; rfl) only [setNode_connSkel,
    forwardAtTarget_connSkel]

theorem updatePulsesLoop_connSkel (selfId : Nat) (dt : ℚ) (os : Nat → PulseOracle) :
    ∀ (fuel : Nat) (s : NetState),
      connSkel (updatePulsesLoop selfId dt os fuel s) = connSkel s := by
  intro fuel
  induction fuel with
  | zero => intro s; rfl
  | succ i ih =>
    intro s
    rw [updatePulsesLoop, ih, stepIndex_connSkel]

theorem updatePulses_connSkel (s : NetState) (selfId : Nat) (dt : ℚ)
    (os : Nat → PulseOracle) : connSkel (updatePulses s selfId dt os) = connSkel s := by
  unfold updatePulses
  split
  · rfl
  · rw [updatePulsesLoop_connSkel]

theorem applyOpacityPhase_connSkel (s : NetState) (selfId : Nat) (time : ℚ)
    (self : Node) : connSkel (applyOpacityPhase s selfId time self) = connSkel s := by
  unfold applyOpacityPhase
  dsimp only
  apply setNode_connSkel <;> exact fun n => rfl

theorem nodeUpdate_connSkel (s : NetState) (selfId : Nat) (time dt : ℚ)
    (o : UpdateOracle) : connSkel (nodeUpdate s selfId time dt o) = connSkel s := by
  unfold nodeUpdate
  repeat' (first | split | dsimp only)
  all_goals simp (disch := intro n; rfl) only [setNode_connSkel,
    sendRandomImpulse_connSkel, updatePulses_connSkel, applyOpacityPhase_connSkel]

theorem step_connSkel (s s' : NetState) (h : Step s s') :
    connSkel s' = connSkel s := by
  cases h with
  | update selfId time dt o => exact nodeUpdate_connSkel s selfId time dt o
  | physics f hf =>
    unfold connSkel
    rw [List.map_map]
    refine List.map_congr_left ?_
    intro n _
    simp only [Function.comp_apply, (hf n).1, (hf n).2.1, (hf n).2.2.2.1]

/-! #### Claim C8 -/

/-- Claim C8: for any sequence of random draws, every entity of the
constructed network has a duplicate-free connection list that never
references the entity itself; and no simulation step ever rewrites any
entity's id, kind or connection list (so the property persists at every
later time). -/
theorem connections_no_self_no_dup :
    (∀ (sq : ℚ → ℚ) (draws : Nat → NodeDraws) (sd : Nat → SourceDraws)
        (pd : Nat → ProcDraws) (width height : ℚ),
      ∀ n ∈ createNetwork sq draws sd pd width height,
        n.connections.Nodup ∧ n.id ∉ n.connections) ∧
    (∀ s s', Step s s' → connSkel s' = connSkel s) :=
  ⟨fun sq draws sd pd width height => createNetwork_connInv sq draws sd pd width height,
   step_connSkel⟩

/-- Claim C8 witness: the step-preservation component applied to a
concrete physics step on a concrete node. -/
theorem connections_no_self_no_dup_witness :
    connSkel ([Node.make 0 0 5 NodeType.source 0 1 0 0].map
      (fun n => { n with x := n.x + 1 })) =
    connSkel [Node.make 0 0 5 NodeType.source 0 1 0 0] :=
  connections_no_self_no_dup.2 _ _
    (Step.physics _ _ (fun n => by
      refine ⟨rfl, rfl, rfl, rfl, rfl, rfl, rfl, rfl, rfl, rfl, rfl, rfl⟩))

/-! #### Claim C6: pending work and entity kinds -/

/-- No node carrying this id is a source. -/
def SafeTarget (s : NetState) (t : Nat) : Prop :=
  ∀ m ∈ s, m.id = t → m.type ≠ NodeType.source

/-- Inductive invariant: no edge or in-flight pulse targets a source, and
every source's pending counter is zero. -/
def SourceInv (s : NetState) : Prop :=
  (∀ n ∈ s, ∀ t ∈ n.connections, SafeTarget s t) ∧
  (∀ n ∈ s, ∀ p ∈ n.pulses, SafeTarget s p.target) ∧
  (∀ n ∈ s, n.type = NodeType.source → n.processingPulses = 0)

theorem safeTarget_setNode (s : NetState) (id : Nat) (f : Node → Node)
    (hid : ∀ n, (f n).id = n.id) (htype : ∀ n, (f n).type = n.type)
    (t : Nat) (h : SafeTarget s t) : SafeTarget (setNode s id f) t := by
  intro m hm hmid
  unfold setNode at hm
  rw [List.mem_map] at hm
  obtain ⟨n, hn, rfl⟩ := hm
  by_cases hcase : n.id = id
  · simp only [hcase, if_true] at hmid ⊢
    rw [htype]
    exact h n hn (by rw [← hid n]; exact hmid)
  · simp only [hcase, if_false] at hmid ⊢
    exact h n hn hmid

/-- Master preservation lemma for `setNode`: the mutation must keep id,
type and connections, may only add pulses with safe targets, and must not
give a source a positive counter. -/
theorem setNode_sourceInv (s : NetState) (id : Nat) (f : Node → Node)
    (hid : ∀ n, (f n).id = n.id) (htype : ∀ n, (f n).type = n.type)
    (hconn : ∀ n, (f n).connections = n.connections)
    (hpul : ∀ n ∈ s, n.id = id → ∀ q ∈ (f n).pulses,
      q ∈ n.pulses ∨ SafeTarget s q.target)
    (hcnt : ∀ n ∈ s, n.id = id → n.type = NodeType.source →
      n.processingPulses = 0 → (f n).processingPulses = 0)
    (hinv : SourceInv s) : SourceInv (setNode s id f) := by
  refine ⟨?_, ?_, ?_⟩
  · intro m hm t ht
    unfold setNode at hm
    rw [List.mem_map] at hm
    obtain ⟨n, hn, rfl⟩ := hm
    have hconn' : (if n.id = id then f n else n).connections = n.connections := by
      split
      · exact hconn n
      · rfl
    rw [hconn'] at ht
    exact safeTarget_setNode s id f hid htype t (hinv.1 n hn t ht)
  · intro m hm q hq
    unfold setNode at hm
    rw [List.mem_map] at hm
    obtain ⟨n, hn, rfl⟩ := hm
    by_cases hcase : n.id = id
    · simp only [hcase, if_true] at hq
      rcases hpul n hn hcase q hq with h | h
      · exact safeTarget_setNode s id f hid htype _ (hinv.2.1 n hn q h)
      · exact safeTarget_setNode s id f hid htype _ h
    · simp only [hcase, if_false] at hq
      exact safeTarget_setNode s id f hid htype _ (hinv.2.1 n hn q hq)
  · intro m hm hmtype
    unfold setNode at hm
    rw [List.mem_map] at hm
    obtain ⟨n, hn, rfl⟩ := hm
    by_cases hcase : n.id = id
    · simp only [hcase, if_true] at hmtype ⊢
      rw [htype] at hmtype
      exact hcnt n hn hcase hmtype (hinv.2.2 n hn hmtype)
    · simp only [hcase, if_false] at hmtype ⊢
      exact hinv.2.2 n hn hmtype

theorem sendRandomImpulse_sourceInv (s : NetState) (selfId : Nat)
    (d : SendDraws) (hinv : SourceInv s) :
    SourceInv (sendRandomImpulse s selfId d) := by
  unfold sendRandomImpulse
  split
  · exact hinv
  · next self hself =>
    split
    · split
      · exact hinv
      · next tid htid =>
        split
        · exact hinv
        · split
          · refine setNode_sourceInv s selfId _ (fun n => rfl) (fun n => rfl)
              (fun n => rfl) ?_ ?_ hinv
            · intro n hn hnid q hq
              simp only [emitPulse, List.mem_append, List.mem_singleton] at hq
              rcases hq with h | h
              · exact Or.inl h
              · refine Or.inr ?_
                rw [h]
                exact hinv.1 self (getNode_mem s selfId self hself) tid
                  (List.get?_mem (by rwa [List.get?_eq_getElem?]))
            · intro n _ _ _ h0
              simp only [emitPulse, h0]
              rfl
          · exact hinv
    · exact hinv

theorem forwardAtTarget_sourceInv (tgtId : Nat) (rFwd : ℚ) (d : SendDraws)
    (s : NetState) (hinv : SourceInv s) :
    SourceInv (forwardAtTarget tgtId rFwd d s) := by
  unfold forwardAtTarget
  split
  · split
    · exact sendRandomImpulse_sourceInv _ _ _ hinv
    · exact hinv
  · exact hinv

theorem stepIndex_sourceInv (selfId : Nat) (dt : ℚ) (o : PulseOracle)
    (i : Nat) (s : NetState) (hinv : SourceInv s) :
    SourceInv (stepIndex selfId dt o i s) := by
  unfold stepIndex
  split
  · exact hinv
  · next self hself =>
    split
    · exact hinv
    · next p hp =>
      dsimp only
      have hpmem : p ∈ self.pulses :=
        List.get?_mem (by rwa [List.get?_eq_getElem?])
      have hsafe : SafeTarget s p.target :=
        hinv.2.1 self (getNode_mem s selfId self hself) p hpmem
      have hinv1 : SourceInv (setNode s selfId
          (fun n => { n with pulses := n.pulses.set i (advP dt p) })) := by
        refine setNode_sourceInv s selfId _ (fun n => rfl) (fun n => rfl)
          (fun n => rfl) ?_ (fun n _ _ _ h0 => h0) hinv
        intro n hn hnid q hq
        rcases List.mem_or_eq_of_mem_set hq with h | h
        · exact Or.inl h
        · exact Or.inr (by rw [h]; exact hsafe)
      split
      · have hsafe1 : SafeTarget (setNode s selfId
            (fun n => { n with pulses := n.pulses.set i (advP dt p) })) p.target :=
          safeTarget_setNode s selfId
            (fun n => { n with pulses := n.pulses.set i (advP dt p) })
            (fun n => rfl) (fun n => rfl) p.target hsafe
        refine setNode_sourceInv _ selfId _ (fun n => rfl) (fun n => rfl)
          (fun n => rfl)
          (fun n _ _ q hq => Or.inl ((List.eraseIdx_sublist n.pulses i).subset hq))
          (fun n _ _ _ h0 => h0) ?_
        refine forwardAtTarget_sourceInv p.target o.rFwd o.send _ ?_
        refine setNode_sourceInv _ p.target _ (fun n => rfl) (fun n => rfl)
          (fun n => rfl) (fun n _ _ q hq => Or.inl hq) ?_ hinv1
        intro n hn hnid hntype _
        exact absurd hntype (hsafe1 n hn hnid)
      · exact hinv1

theorem updatePulsesLoop_sourceInv (selfId : Nat) (dt : ℚ)
    (os : Nat → PulseOracle) :
    ∀ (fuel : Nat) (s : NetState), SourceInv s →
      SourceInv (updatePulsesLoop selfId dt os fuel s) := by
  intro fuel
  induction fuel with
  | zero => intro s h; exact h
  | succ i ih =>
    intro s h
    exact ih _ (stepIndex_sourceInv selfId dt (os i) i s h)

theorem updatePulses_sourceInv (s : NetState) (selfId : Nat) (dt : ℚ)
    (os : Nat → PulseOracle) (hinv : SourceInv s) :
    SourceInv (updatePulses s selfId dt os) := by
  unfold updatePulses
  split
  · exact hinv
  · exact updatePulsesLoop_sourceInv selfId dt os _ s hinv

theorem applyOpacityPhase_sourceInv (s : NetState) (selfId : Nat) (time : ℚ)
    (self : Node) (hinv : SourceInv s) :
    SourceInv (applyOpacityPhase s selfId time self) := by
  unfold applyOpacityPhase
  dsimp only
  exact setNode_sourceInv _ _ _ (fun n => rfl) (fun n => rfl) (fun n => rfl)
    (fun n _ _ q hq => Or.inl hq) (fun n _ _ _ h0 => h0) hinv

theorem nodeUpdate_sourceInv (s : NetState) (selfId : Nat) (time dt : ℚ)
    (o : UpdateOracle) (hinv : SourceInv s) :
    SourceInv (nodeUpdate s selfId time dt o) := by
  unfold nodeUpdate
  split
  · exact hinv
  · dsimp only
    refine updatePulses_sourceInv _ _ _ _ ?_
    repeat' split
    all_goals
      repeat
        first
          | exact hinv
          | refine sendRandomImpulse_sourceInv _ _ _ ?_
          | refine applyOpacityPhase_sourceInv _ _ _ _ ?_
          | refine setNode_sourceInv _ _ _ (fun n => rfl) (fun n => rfl)
              (fun n => rfl) (fun n _ _ q hq => Or.inl hq)
              (fun n _ _ _ h0 => h0) ?_

theorem map_sourceInv (s : NetState) (f : Node → Node) (hf : PhysWrite f)
    (hinv : SourceInv s) : SourceInv (s.map f) := by
  have hsafe : ∀ t, SafeTarget s t → SafeTarget (s.map f) t := by
    intro t h m hm hmid
    rw [List.mem_map] at hm
    obtain ⟨n, hn, rfl⟩ := hm
    rw [(hf n).2.1]
    exact h n hn (by rw [← (hf n).1]; exact hmid)
  refine ⟨?_, ?_, ?_⟩
  · intro m hm t ht
    rw [List.mem_map] at hm
    obtain ⟨n, hn, rfl⟩ := hm
    rw [(hf n).2.2.2.1] at ht
    exact hsafe t (hinv.1 n hn t ht)
  · intro m hm q hq
    rw [List.mem_map] at hm
    obtain ⟨n, hn, rfl⟩ := hm
    rw [(hf n).2.2.2.2.1] at hq
    exact hsafe _ (hinv.2.1 n hn q hq)
  · intro m hm hmtype
    rw [List.mem_map] at hm
    obtain ⟨n, hn, rfl⟩ := hm
    rw [(hf n).2.2.2.2.2.1]
    rw [(hf n).2.1] at hmtype
    exact hinv.2.2 n hn hmtype

theorem step_sourceInv (s s' : NetState) (h : Step s s')
    (hinv : SourceInv s) : SourceInv s' := by
  cases h with
  | update selfId time dt o => exact nodeUpdate_sourceInv s selfId time dt o hinv
  | physics f hf => exact map_sourceInv s f hf hinv

/-- Claim C6 (amended): only sources are protected — in every state
reachable from a well-formed initial network (no edge into a source, no
pulse into a source, all source counters zero — as network construction
guarantees), every source entity's `processingPulses` stays 0.
Destinations are NOT protected: a pulse arriving at a destination
increments its counter (see the counterexample). -/
theorem sources_never_pending (s0 s : NetState) (hinit : SourceInv s0)
    (hreach : Reachable s0 s) :
    ∀ n ∈ s, n.type = NodeType.source → n.processingPulses = 0 := by
  have hinv : SourceInv s := by
    induction hreach with
    | refl => exact hinit
    | tail _ hstep ih => exact step_sourceInv _ _ hstep ih
  exact hinv.2.2

theorem process_ne_source : (NodeType.process = NodeType.source) = False := by
  decide

theorem destination_ne_process : (NodeType.destination = NodeType.process) = False := by
  decide

/-- `a % b` in JS for `0 ≤ a < b` is just `a`. -/
theorem jsMod_of_nonneg_lt (a b : ℚ) (h0 : 0 ≤ a) (hb : 0 < b) (hab : a < b) :
    jsMod a b = a := by
  unfold jsMod
  have hq0 : 0 ≤ a / b := div_nonneg h0 hb.le
  have hq1 : a / b < 1 := (div_lt_one hb).mpr hab
  rw [if_pos hq0, Int.floor_eq_zero_iff.mpr ⟨hq0, hq1⟩]
  simp

/-- A one-source network for the C6 witness. -/
def c6wS : NetState := [Node.make 0 0 5 NodeType.source 0 1 0 0]

/-- Claim C6 witness: the amended claim applied to a freshly built
one-source state (reachable by zero steps). -/
theorem sources_never_pending_witness :
    (Node.make 0 0 5 NodeType.source 0 1 0 0).processingPulses = 0 :=
  sources_never_pending c6wS c6wS
    (by
      refine ⟨?_, ?_, ?_⟩ <;> intro n hn <;>
        simp only [c6wS, Node.make, List.mem_singleton] at hn <;> subst hn <;> simp)
    Relation.ReflTransGen.refl
    (Node.make 0 0 5 NodeType.source 0 1 0 0)
    (by simp [c6wS]) rfl

/-- The counterexample chain: source 0 → process 1 → destination 2, all
fully opaque. -/
def c6S : Node := (Node.make 0 0 5 NodeType.source 0 1 0 0).connect 1

def c6P : Node := (Node.make 10 0 5 NodeType.process 1 1 0 0).connect 2

def c6D : Node := Node.make 20 0 5 NodeType.destination 2 1 0 0

def c6s0 : NetState := [c6S, c6P, c6D]

/-- Oracle draws: emission coin 0.9, connection index 0, speed draw 0.8
(speed `0.002 + 0.8·0.023 = 51/2500`), forward coin 0.9, process-forward
coin 0. -/
def c6o : UpdateOracle := ⟨⟨9/10, 0, 4/5⟩, 0, fun _ => ⟨9/10, ⟨9/10, 0, 4/5⟩⟩⟩

def c6s1 : NetState := nodeUpdate c6s0 0 5000 0 c6o

def c6s2 : NetState := nodeUpdate c6s1 0 5001 (83335/100) c6o

def c6s3 : NetState := nodeUpdate c6s2 1 5002 (83335/100) c6o

/-- Claim C6 counterexample: from a well-formed initial network, three
update steps (source 0 emits; its pulse completes at process 1, which
immediately forwards; the forwarded pulse completes at destination 2)
reach a state in which the DESTINATION's `processingPulses` is 1 — the
claim that destinations always carry a zero pending-work counter is
false on the code. -/
theorem destination_pending_counterexample :
    SourceInv c6s0 ∧ Reachable c6s0 c6s3 ∧
    ∃ n ∈ c6s3, n.type = NodeType.destination ∧ n.processingPulses = 1 := by
  refine ⟨?_, ?_, ?_⟩
  · refine ⟨?_, ?_, ?_⟩ <;> intro n hn <;>
      simp [c6s0, c6S, c6P, c6D, Node.make, Node.connect] at hn
    · rcases hn with h | h | h <;> subst h <;>
        intro t ht <;> simp_all [SafeTarget, c6s0, c6S, c6P, c6D, Node.make, Node.connect]
    · rcases hn with h | h | h <;> subst h <;> intro p hp <;> simp_all
    · rcases hn with h | h | h <;> subst h <;> simp_all
  · exact Relation.ReflTransGen.head (Step.update c6s0 0 5000 0 c6o)
      (Relation.ReflTransGen.head (Step.update c6s1 0 5001 (83335/100) c6o)
        (Relation.ReflTransGen.head (Step.update c6s2 1 5002 (83335/100) c6o)
          Relation.ReflTransGen.refl))
  · have h1 : c6s1 = [{ c6S with
        lastPulseTime := 5000
        targetOpacity := 1
        opacity := 1
        active := true
        pulses := [⟨0, 1, 0, 51/2500⟩] }, c6P, c6D] := by
      norm_num [c6s1, c6s0, c6o, nodeUpdate, applyOpacityPhase, updatePulses,
        updatePulsesLoop, stepIndex, forwardAtTarget, sendRandomImpulse, emitPulse,
        setNode, getNode, advP, PULSE_SPEED, jsMod_of_nonneg_lt, Node.make,
        Node.connect, c6S, c6P, c6D]
    have h2 : c6s2 = [{ c6S with
        lastPulseTime := 5000
        targetOpacity := 1
        opacity := 1
        active := true
        pulses := [] }, { c6P with
        targetOpacity := 1
        opacity := 1
        active := true
        pulses := [⟨1, 2, 0, 51/2500⟩] }, c6D] := by
      rw [c6s2, h1]
      norm_num [c6o, nodeUpdate, applyOpacityPhase, updatePulses, updatePulsesLoop,
        stepIndex, forwardAtTarget, sendRandomImpulse, emitPulse, setNode, getNode,
        advP, PULSE_SPEED, jsMod_of_nonneg_lt, Node.make, Node.connect, c6S, c6P,
        c6D]
    have h3 : ∃ n ∈ c6s3, n.id = 2 ∧ n.type = NodeType.destination ∧
        n.processingPulses = 1 := by
      rw [c6s3, h2]
      norm_num [c6o, nodeUpdate, applyOpacityPhase, updatePulses, updatePulsesLoop,
        stepIndex, forwardAtTarget, sendRandomImpulse, emitPulse, setNode, getNode,
        advP, PULSE_SPEED, jsMod_of_nonneg_lt, Node.make, Node.connect, c6S, c6P,
        c6D, process_ne_source, destination_ne_process]
    obtain ⟨n, hn, _, hnt, hnp⟩ := h3
    exact ⟨n, hn, hnt, hnp⟩

/-! #### Claim C10: opacity stays in `[0.3, 1]`, target opacity in `{0.3, 1}` -/

def OpacNode (n : Node) : Prop :=
  3/10 ≤ n.opacity ∧ n.opacity ≤ 1 ∧
    (n.targetOpacity = 3/10 ∨ n.targetOpacity = 1)

def OpacInv (s : NetState) : Prop := ∀ n ∈ s, OpacNode n

theorem setNode_opacInv (s : NetState) (id : Nat) (f : Node → Node)
    (hf : ∀ n ∈ s, OpacNode n → OpacNode (f n)) (hinv : OpacInv s) :
    OpacInv (setNode s id f) := by
  intro m hm
  unfold setNode at hm
  rw [List.mem_map] at hm
  obtain ⟨n, hn, rfl⟩ := hm
  split
  · exact hf n hn (hinv n hn)
  · exact hinv n hn

theorem sendRandomImpulse_opacInv (s : NetState) (selfId : Nat) (d : SendDraws)
    (hinv : OpacInv s) : OpacInv (sendRandomImpulse s selfId d) := by
  unfold sendRandomImpulse
  repeat' split
  all_goals
    first
      | exact hinv
      | exact setNode_opacInv _ _ _ (fun n _ h => h) hinv

theorem forwardAtTarget_opacInv (tgtId : Nat) (rFwd : ℚ) (d : SendDraws)
    (s : NetState) (hinv : OpacInv s) :
    OpacInv (forwardAtTarget tgtId rFwd d s) := by
  unfold forwardAtTarget
  repeat' split
  all_goals
    first
      | exact hinv
      | exact sendRandomImpulse_opacInv _ _ _ hinv

theorem stepIndex_opacInv (selfId : Nat) (dt : ℚ) (o : PulseOracle) (i : Nat)
    (s : NetState) (hinv : OpacInv s) : OpacInv (stepIndex selfId dt o i s) := by
  unfold stepIndex
  repeat' (first | split | dsimp only)
  all_goals
    repeat
      first
        | exact hinv
        | refine forwardAtTarget_opacInv _ _ _ _ ?_
        | refine setNode_opacInv _ _ _ (fun n _ h => h) ?_
        | refine setNode_opacInv _ _ _
            (fun n _ h => ⟨by norm_num, by norm_num, Or.inr rfl⟩) ?_

theorem updatePulsesLoop_opacInv (selfId : Nat) (dt : ℚ) (os : Nat → PulseOracle) :
    ∀ (fuel : Nat) (s : NetState), OpacInv s →
      OpacInv (updatePulsesLoop selfId dt os fuel s) := by
  intro fuel
  induction fuel with
  | zero => intro s h; exact h
  | succ i ih =>
    intro s h
    exact ih _ (stepIndex_opacInv selfId dt (os i) i s h)

theorem updatePulses_opacInv (s : NetState) (selfId : Nat) (dt : ℚ)
    (os : Nat → PulseOracle) (hinv : OpacInv s) :
    OpacInv (updatePulses s selfId dt os) := by
  unfold updatePulses
  split
  · exact hinv
  · exact updatePulsesLoop_opacInv selfId dt os _ s hinv

theorem applyOpacityPhase_opacInv (s : NetState) (selfId : Nat) (time : ℚ)
    (self : Node) (hself : OpacNode self) (hinv : OpacInv s) :
    OpacInv (applyOpacityPhase s selfId time self) := by
  unfold applyOpacityPhase
  dsimp only
  refine setNode_opacInv _ _ _ ?_ hinv
  intro n _ _
  obtain ⟨hlo, hhi, _⟩ := hself
  unfold OpacNode
  dsimp only
  split_ifs <;> refine ⟨?_, ?_, ?_⟩ <;>
    first
      | linarith
      | exact Or.inl rfl
      | exact Or.inr rfl

theorem nodeUpdate_opacInv (s : NetState) (selfId : Nat) (time dt : ℚ)
    (o : UpdateOracle) (hinv : OpacInv s) :
    OpacInv (nodeUpdate s selfId time dt o) := by
  unfold nodeUpdate
  split
  · exact hinv
  · next self hself =>
    dsimp only
    have hselfOp : OpacNode self := hinv self (getNode_mem s selfId self hself)
    refine updatePulses_opacInv _ _ _ _ ?_
    repeat' split
    all_goals
      repeat
        first
          | exact hinv
          | refine sendRandomImpulse_opacInv _ _ _ ?_
          | refine setNode_opacInv _ _ _ (fun n _ h => h) ?_
          | refine applyOpacityPhase_opacInv _ _ _ _ hselfOp ?_

theorem map_opacInv (s : NetState) (f : Node → Node) (hf : PhysWrite f)
    (hinv : OpacInv s) : OpacInv (s.map f) := by
  intro m hm
  rw [List.mem_map] at hm
  obtain ⟨n, hn, rfl⟩ := hm
  have h := hinv n hn
  exact ⟨(hf n).2.2.2.2.2.2.2.1 ▸ h.1, (hf n).2.2.2.2.2.2.2.1 ▸ h.2.1,
    (hf n).2.2.2.2.2.2.2.2.1 ▸ h.2.2⟩

theorem step_opacInv (s s' : NetState) (hinv : OpacInv s) (h : Step s s') :
    OpacInv s' := by
  cases h with
  | update selfId time dt o => exact nodeUpdate_opacInv s selfId time dt o hinv
  | physics f hf => exact map_opacInv s f hf hinv

/-- Claim C10: every constructed entity starts with opacity in `[0.3, 1]`
and target opacity exactly `0.3` or `1`, and every simulation step
(update with its exponential relaxation toward a target in that pair,
pulse arrival snapping both to 1, and any physics/input write) preserves
this for every entity. -/
theorem opacity_in_bounds :
    (∀ (x y radius : ℚ) (type : NodeType) (id : Nat) (ra rb rc : ℚ),
      OpacNode (Node.make x y radius type id ra rb rc)) ∧
    (∀ s s', OpacInv s → Step s s' → OpacInv s') := by
  constructor
  · intro x y radius type id ra rb rc
    unfold Node.make OpacNode
    refine ⟨?_, ?_, ?_⟩ <;> dsimp only <;> split <;> norm_num
  · exact step_opacInv

/-- Claim C10 witness: the construction bound at concrete arguments and
the preservation applied to one concrete update step. -/
theorem opacity_in_bounds_witness :
    OpacNode (Node.make 1 2 3 NodeType.source 0 (1/4) 0 0) ∧
    OpacInv (nodeUpdate [Node.make 1 2 3 NodeType.source 0 (1/4) 0 0] 0 0 0 c6o) :=
  ⟨opacity_in_bounds.1 1 2 3 NodeType.source 0 (1/4) 0 0,
   opacity_in_bounds.2 _ _
     (by
       intro n hn
       simp only [List.mem_singleton] at hn
       subst hn
       exact opacity_in_bounds.1 1 2 3 NodeType.source 0 (1/4) 0 0)
     (Step.update _ 0 0 0 c6o)⟩

/-! #### Claim C5: the emission algorithm -/

theorem sendRandomImpulse_getNode_ne (s : NetState) (selfId : Nat)
    (d : SendDraws) (j : Nat) (hne : j ≠ selfId) :
    getNode (sendRandomImpulse s selfId d) j = getNode s j := by
  unfold sendRandomImpulse
  repeat' split
  all_goals
    first
      | rfl
      | exact getNode_setNode_ne _ _ _ _ (fun n => rfl) hne

/-- Claim C5 (amended): modelling the `Math.random()` draws as explicit
inputs, `sendRandomImpulse` skips emission entirely when the emission coin
is at most 0.3 (skip probability 0.3, NOT 0.7 — the code reads
`Math.random() > 0.3` to proceed) or when there is no outgoing connection;
otherwise it takes the uniformly drawn connection, emits only if that
target's opacity exceeds the 0.5 visibility threshold, pushes a pulse with
progress 0 and speed in the fixed positive band `[0.002, 0.025)` onto its
own list, decrements its pending-work counter exactly when positive, and
touches no other entity. -/
theorem sendRandomImpulse_characterization (s : NetState) (selfId : Nat)
    (d : SendDraws) (self : Node) (hget : getNode s selfId = some self)
    (hrs0 : 0 ≤ d.rs) (hrs1 : d.rs < 1) :
    ((self.connections.length = 0 ∨ d.r1 ≤ 3/10) →
      sendRandomImpulse s selfId d = s) ∧
    (∀ tid tgt, 0 < self.connections.length → 3/10 < d.r1 →
      self.connections[d.idx % self.connections.length]? = some tid →
      getNode s tid = some tgt →
      ((tgt.opacity ≤ 1/2 → sendRandomImpulse s selfId d = s) ∧
       (1/2 < tgt.opacity →
         (∃ self', getNode (sendRandomImpulse s selfId d) selfId = some self' ∧
            self'.pulses = self.pulses ++
              [⟨selfId, tid, 0, 1/500 + d.rs * PULSE_SPEED⟩] ∧
            self'.processingPulses =
              (if 0 < self.processingPulses then self.processingPulses - 1
               else self.processingPulses)) ∧
         (∀ j, j ≠ selfId →
            getNode (sendRandomImpulse s selfId d) j = getNode s j) ∧
         1/500 ≤ 1/500 + d.rs * PULSE_SPEED ∧
         1/500 + d.rs * PULSE_SPEED < 1/40))) := by
  constructor
  · intro h
    unfold sendRandomImpulse
    rw [hget]
    dsimp only
    rw [if_neg]
    rcases h with h | h
    · rw [h]
      exact fun hc => absurd hc.1 (by norm_num)
    · exact fun hc => absurd hc.2 (by exact not_lt.mpr h)
  · intro tid tgt hlen hr1 hidx hgt
    refine ⟨?_, ?_⟩
    · intro hop
      unfold sendRandomImpulse
      rw [hget]
      dsimp only
      rw [if_pos ⟨hlen, hr1⟩, hidx]
      dsimp only
      rw [hgt]
      dsimp only
      rw [if_neg (not_lt.mpr hop)]
    · intro hop
      have hsend : sendRandomImpulse s selfId d = setNode s selfId
          (emitPulse selfId tid (1/500 + d.rs * PULSE_SPEED)) := by
        unfold sendRandomImpulse
        rw [hget]
        dsimp only
        rw [if_pos ⟨hlen, hr1⟩, hidx]
        dsimp only
        rw [hgt]
        dsimp only
        rw [if_pos hop]
      refine ⟨⟨emitPulse selfId tid (1/500 + d.rs * PULSE_SPEED) self, ?_, rfl, rfl⟩,
        ?_, ?_, ?_⟩
      · rw [hsend]
        exact getNode_setNode_self s selfId
          (emitPulse selfId tid (1/500 + d.rs * PULSE_SPEED)) (fun n => rfl)
          self hget
      · intro j hj
        exact sendRandomImpulse_getNode_ne s selfId d j hj
      · unfold PULSE_SPEED
        nlinarith
      · unfold PULSE_SPEED
        nlinarith

/-- Network for the C5 witness and counterexample: node 0 connected to a
fully opaque node 1. -/
def c5s : NetState :=
  [(Node.make 0 0 5 NodeType.source 0 1 0 0).connect 1,
   Node.make 10 0 5 NodeType.process 1 1 0 0]

/-- Claim C5 witness: the characterization applied to the concrete
two-node network with emission coin 0.9, index draw 0, speed draw 0.5. -/
theorem sendRandomImpulse_characterization_witness :
    (((Node.make 0 0 5 NodeType.source 0 1 0 0).connect 1).connections.length = 0 ∨
      (9:ℚ)/10 ≤ 3/10 →
      sendRandomImpulse c5s 0 ⟨9/10, 0, 1/2⟩ = c5s) ∧
    (∀ tid tgt,
      0 < ((Node.make 0 0 5 NodeType.source 0 1 0 0).connect 1).connections.length →
      (3:ℚ)/10 < 9/10 →
      ((Node.make 0 0 5 NodeType.source 0 1 0 0).connect 1).connections[(0:Nat) %
        ((Node.make 0 0 5 NodeType.source 0 1 0 0).connect 1).connections.length]? =
        some tid →
      getNode c5s tid = some tgt →
      ((tgt.opacity ≤ 1/2 → sendRandomImpulse c5s 0 ⟨9/10, 0, 1/2⟩ = c5s) ∧
       (1/2 < tgt.opacity →
         (∃ self', getNode (sendRandomImpulse c5s 0 ⟨9/10, 0, 1/2⟩) 0 = some self' ∧
            self'.pulses = ((Node.make 0 0 5 NodeType.source 0 1 0 0).connect 1).pulses ++
              [⟨0, tid, 0, 1/500 + (1/2) * PULSE_SPEED⟩] ∧
            self'.processingPulses =
              (if 0 < ((Node.make 0 0 5 NodeType.source 0 1 0 0).connect 1).processingPulses
               then ((Node.make 0 0 5 NodeType.source 0 1 0 0).connect 1).processingPulses - 1
               else ((Node.make 0 0 5 NodeType.source 0 1 0 0).connect 1).processingPulses)) ∧
         (∀ j, j ≠ 0 →
            getNode (sendRandomImpulse c5s 0 ⟨9/10, 0, 1/2⟩) j = getNode c5s j) ∧
         (1:ℚ)/500 ≤ 1/500 + (1/2) * PULSE_SPEED ∧
         (1:ℚ)/500 + (1/2) * PULSE_SPEED < 1/40))) :=
  sendRandomImpulse_characterization c5s 0 ⟨9/10, 0, 1/2⟩
    ((Node.make 0 0 5 NodeType.source 0 1 0 0).connect 1)
    (by norm_num [c5s, getNode, Node.make, Node.connect])
    (by norm_num) (by norm_num)

/-- Claim C5 counterexample: the emission coin 0.5 lies inside the
claimed 0.7-probability skip region, yet the code emits — node 0's pulse
list grows from empty to length 1 (the code skips only on draws at or
below 0.3). -/
theorem sendRandomImpulse_skip_counterexample :
    ((1:ℚ)/2 < 7/10 ∧ (3:ℚ)/10 < 1/2) ∧
    (∃ n, getNode (sendRandomImpulse c5s 0 ⟨1/2, 0, 1/2⟩) 0 = some n ∧
      n.pulses.length = 1) := by
  constructor
  · norm_num
  · norm_num [c5s, sendRandomImpulse, emitPulse, getNode, setNode, Node.make,
      Node.connect, PULSE_SPEED]

/-- One pulse's fate within an update step: advance its progress by
`speed * (deltaTime / 16.667)`; keep the advanced pulse while its progress
stays below 1, retire (drop) it otherwise. -/
def advDrop (dt : ℚ) (p : Pulse) : Option Pulse :=
  if 1 ≤ (advP dt p).progress then none else some (advP dt p)

/-- The in-place write of the advanced pulse at index `i`. -/
def setPulseAt (i : Nat) (q : Pulse) (n : Node) : Node :=
  { n with pulses := n.pulses.set i q }

/-- The arrival mutation of the target: pending counter up, snap active. -/
def snapActive (n : Node) : Node :=
  { n with processingPulses := n.processingPulses + 1,
           active := true, opacity := 1, targetOpacity := 1 }

/-- The `splice(i, 1)` removal of the retired pulse. -/
def erasePulseAt (i : Nat) (n : Node) : Node :=
  { n with pulses := n.pulses.eraseIdx i }

theorem take_set_self {α : Type*} (l : List α) (i : Nat) (a : α)
    (h : i < l.length) : (l.set i a).take i = l.take i := by
  rw [List.set_eq_take_cons_drop a h]
  exact List.take_left' (List.length_take_of_le h.le)

theorem drop_set_self {α : Type*} (l : List α) (i : Nat) (a : α)
    (h : i < l.length) : (l.set i a).drop i = a :: l.drop (i + 1) := by
  rw [List.set_eq_take_cons_drop a h]
  exact List.drop_left' (List.length_take_of_le h.le)

theorem drop_succ_set_self {α : Type*} (l : List α) (i : Nat) (a : α)
    (h : i < l.length) : (l.set i a).drop (i + 1) = l.drop (i + 1) := by
  rw [List.set_eq_take_cons_drop a h,
    show l.take i ++ a :: l.drop (i + 1) = (l.take i ++ [a]) ++ l.drop (i + 1) by
      simp]
  exact List.drop_left' (by simp [List.length_take_of_le h.le])

theorem erase_set_self {α : Type*} (l : List α) (i : Nat) (a : α)
    (h : i < l.length) : (l.set i a).eraseIdx i = l.take i ++ l.drop (i + 1) := by
  rw [List.eraseIdx_eq_take_drop_succ, take_set_self l i a h,
    drop_succ_set_self l i a h]

theorem take_succ_of_lt {α : Type*} (l : List α) (i : Nat) (h : i < l.length) :
    l.take (i + 1) = l.take i ++ [l[i]] := by
  rw [List.take_succ]
  simp [List.getElem?_eq_getElem h]

theorem forwardAtTarget_nf (tgtId : Nat) (rFwd : ℚ) (d : SendDraws)
    (s : NetState) (h : rFwd ≤ 7/10) : forwardAtTarget tgtId rFwd d s = s := by
  unfold forwardAtTarget
  split
  · rw [if_neg (fun hc => absurd hc.2 (not_lt.mpr h))]
  · rfl

/-- The downward `updatePulses` loop, characterised when no pulse targets
the owner and the forwarding coin never fires: the first `fuel` entries of
the owner's pulse list are advanced and filtered by `advDrop`, the rest is
untouched, and every other node's pending counter grows by the number of
pulses among the first `fuel` that retire into it. -/
theorem updatePulsesLoop_spec (selfId : Nat) (dt : ℚ) (os : Nat → PulseOracle)
    (hnf : ∀ k, (os k).rFwd ≤ 7/10) :
    ∀ fuel s self, getNode s selfId = some self →
      fuel ≤ self.pulses.length →
      (∀ p ∈ self.pulses, p.target ≠ selfId) →
      (∃ self', getNode (updatePulsesLoop selfId dt os fuel s) selfId = some self' ∧
        self'.pulses =
          (self.pulses.take fuel).filterMap (advDrop dt) ++ self.pulses.drop fuel) ∧
      (∀ tgtId tgt, tgtId ≠ selfId → getNode s tgtId = some tgt →
        ∃ tgt', getNode (updatePulsesLoop selfId dt os fuel s) tgtId = some tgt' ∧
          tgt'.processingPulses = tgt.processingPulses +
            ((self.pulses.take fuel).filter (fun p =>
              decide (1 ≤ (advP dt p).progress) && decide (p.target = tgtId))).length) := by
  intro fuel
  induction fuel with
  | zero =>
    intro s self hget hfuel htgt
    refine ⟨⟨self, hget, by simp⟩, ?_⟩
    intro tgtId tgt hne hgt
    exact ⟨tgt, hgt, by simp⟩
  | succ fuel ih =>
    intro s self hget hfuel htgt
    have hflt : fuel < self.pulses.length := hfuel
    have hpidx : self.pulses[fuel]? = some self.pulses[fuel] :=
      List.getElem?_eq_getElem hflt
    have hpmem : self.pulses[fuel] ∈ self.pulses := List.getElem_mem hflt
    have hloop : updatePulsesLoop selfId dt os (fuel + 1) s =
        updatePulsesLoop selfId dt os fuel (stepIndex selfId dt (os fuel) fuel s) :=
      rfl
    by_cases hret : (1:ℚ) ≤ (advP dt self.pulses[fuel]).progress
    · have htp : self.pulses[fuel].target ≠ selfId := htgt _ hpmem
      have hstep : stepIndex selfId dt (os fuel) fuel s =
          setNode (forwardAtTarget self.pulses[fuel].target (os fuel).rFwd
            (os fuel).send
            (setNode (setNode s selfId (setPulseAt fuel (advP dt self.pulses[fuel])))
              self.pulses[fuel].target snapActive))
            selfId (erasePulseAt fuel) := by
        unfold stepIndex
        rw [hget]
        dsimp only
        rw [hpidx]
        dsimp only
        rw [if_pos hret]
        rfl
      rw [hloop, hstep, forwardAtTarget_nf _ _ _ _ (hnf fuel)]
      have hget₁ := getNode_setNode_self s selfId
        (setPulseAt fuel (advP dt self.pulses[fuel])) (fun n => rfl) self hget
      have hget₂ : getNode (setNode
          (setNode s selfId (setPulseAt fuel (advP dt self.pulses[fuel])))
          self.pulses[fuel].target snapActive) selfId =
          some (setPulseAt fuel (advP dt self.pulses[fuel]) self) := by
        rw [getNode_setNode_ne
          (setNode s selfId (setPulseAt fuel (advP dt self.pulses[fuel])))
          self.pulses[fuel].target selfId snapActive (fun n => rfl) htp.symm]
        exact hget₁
      have hget₃ := getNode_setNode_self (setNode
          (setNode s selfId (setPulseAt fuel (advP dt self.pulses[fuel])))
          self.pulses[fuel].target snapActive) selfId (erasePulseAt fuel)
          (fun n => rfl) (setPulseAt fuel (advP dt self.pulses[fuel]) self) hget₂
      have hps₃ : (erasePulseAt fuel
          (setPulseAt fuel (advP dt self.pulses[fuel]) self)).pulses =
          self.pulses.take fuel ++ self.pulses.drop (fuel + 1) := by
        show (self.pulses.set fuel (advP dt self.pulses[fuel])).eraseIdx fuel = _
        exact erase_set_self _ _ _ hflt
      have hlen₃ : fuel ≤ (erasePulseAt fuel
          (setPulseAt fuel (advP dt self.pulses[fuel]) self)).pulses.length := by
        rw [hps₃, List.length_append, List.length_take_of_le hflt.le]
        exact Nat.le_add_right _ _
      have htgt₃ : ∀ q ∈ (erasePulseAt fuel
          (setPulseAt fuel (advP dt self.pulses[fuel]) self)).pulses,
          q.target ≠ selfId := by
        intro q hq
        rw [hps₃] at hq
        rcases List.mem_append.mp hq with h | h
        · exact htgt q ((List.take_sublist _ _).subset h)
        · exact htgt q ((List.drop_sublist _ _).subset h)
      obtain ⟨⟨self'', hs'', hp''⟩, hcnt⟩ := ih (setNode (setNode
          (setNode s selfId (setPulseAt fuel (advP dt self.pulses[fuel])))
          self.pulses[fuel].target snapActive) selfId (erasePulseAt fuel))
        (erasePulseAt fuel (setPulseAt fuel (advP dt self.pulses[fuel]) self))
        hget₃ hlen₃ htgt₃
      constructor
      · refine ⟨self'', hs'', ?_⟩
        rw [hp'', hps₃,
          List.take_left' (List.length_take_of_le hflt.le),
          List.drop_left' (List.length_take_of_le hflt.le),
          take_succ_of_lt _ _ hflt, List.filterMap_append]
        simp [advDrop, hret]
      · intro tgtId tgt hne hgt
        have hgt₁ : getNode (setNode s selfId
            (setPulseAt fuel (advP dt self.pulses[fuel]))) tgtId = getNode s tgtId :=
          getNode_setNode_ne s selfId tgtId
            (setPulseAt fuel (advP dt self.pulses[fuel])) (fun n => rfl) hne
        by_cases htt : tgtId = self.pulses[fuel].target
        · subst htt
          have hgt₂ : getNode (setNode
              (setNode s selfId (setPulseAt fuel (advP dt self.pulses[fuel])))
              self.pulses[fuel].target snapActive) self.pulses[fuel].target =
              some (snapActive tgt) := by
            refine getNode_setNode_self _ self.pulses[fuel].target snapActive
              (fun n => rfl) tgt ?_
            rw [hgt₁]
            exact hgt
          have hgt₃ : getNode (setNode (setNode
              (setNode s selfId (setPulseAt fuel (advP dt self.pulses[fuel])))
              self.pulses[fuel].target snapActive) selfId (erasePulseAt fuel))
              self.pulses[fuel].target = some (snapActive tgt) := by
            rw [getNode_setNode_ne _ selfId self.pulses[fuel].target
              (erasePulseAt fuel) (fun n => rfl) hne]
            exact hgt₂
          obtain ⟨tgt', hg', hc'⟩ := hcnt self.pulses[fuel].target (snapActive tgt)
            hne hgt₃
          refine ⟨tgt', hg', ?_⟩
          rw [hc', hps₃, List.take_left' (List.length_take_of_le hflt.le),
            take_succ_of_lt _ _ hflt, List.filter_append, List.length_append]
          have h1 : (List.filter (fun p =>
              decide (1 ≤ (advP dt p).progress) &&
              decide (p.target = self.pulses[fuel].target))
              [self.pulses[fuel]]).length = 1 := by
            simp [hret]
          rw [h1]
          have h2 : (snapActive tgt).processingPulses = tgt.processingPulses + 1 :=
            rfl
          rw [h2]
          omega
        · have hgt₂ : getNode (setNode
              (setNode s selfId (setPulseAt fuel (advP dt self.pulses[fuel])))
              self.pulses[fuel].target snapActive) tgtId = some tgt := by
            rw [getNode_setNode_ne _ self.pulses[fuel].target tgtId snapActive
              (fun n => rfl) htt, hgt₁]
            exact hgt
          have hgt₃ : getNode (setNode (setNode
              (setNode s selfId (setPulseAt fuel (advP dt self.pulses[fuel])))
              self.pulses[fuel].target snapActive) selfId (erasePulseAt fuel))
              tgtId = some tgt := by
            rw [getNode_setNode_ne _ selfId tgtId (erasePulseAt fuel)
              (fun n => rfl) hne]
            exact hgt₂
          obtain ⟨tgt', hg', hc'⟩ := hcnt tgtId tgt hne hgt₃
          refine ⟨tgt', hg', ?_⟩
          rw [hc', hps₃, List.take_left' (List.length_take_of_le hflt.le),
            take_succ_of_lt _ _ hflt, List.filter_append, List.length_append]
          have h1 : (List.filter (fun p =>
              decide (1 ≤ (advP dt p).progress) && decide (p.target = tgtId))
              [self.pulses[fuel]]).length = 0 := by
            simp [show self.pulses[fuel].target ≠ tgtId from fun h => htt h.symm]
          rw [h1]
          omega
    · have hstep : stepIndex selfId dt (os fuel) fuel s =
          setNode s selfId (setPulseAt fuel (advP dt self.pulses[fuel])) := by
        unfold stepIndex
        rw [hget]
        dsimp only
        rw [hpidx]
        dsimp only
        rw [if_neg hret]
        rfl
      rw [hloop, hstep]
      have hget₁ := getNode_setNode_self s selfId
        (setPulseAt fuel (advP dt self.pulses[fuel])) (fun n => rfl) self hget
      have hps₁ : (setPulseAt fuel (advP dt self.pulses[fuel]) self).pulses =
          self.pulses.set fuel (advP dt self.pulses[fuel]) := rfl
      have hlen₁ : fuel ≤
          (setPulseAt fuel (advP dt self.pulses[fuel]) self).pulses.length := by
        rw [hps₁, List.length_set]
        exact hflt.le
      have htgt₁ : ∀ q ∈ (setPulseAt fuel (advP dt self.pulses[fuel]) self).pulses,
          q.target ≠ selfId := by
        intro q hq
        rw [hps₁] at hq
        rcases List.mem_or_eq_of_mem_set hq with h | h
        · exact htgt q h
        · rw [h]
          exact htgt self.pulses[fuel] hpmem
      obtain ⟨⟨self'', hs'', hp''⟩, hcnt⟩ := ih
        (setNode s selfId (setPulseAt fuel (advP dt self.pulses[fuel])))
        (setPulseAt fuel (advP dt self.pulses[fuel]) self) hget₁ hlen₁ htgt₁
      constructor
      · refine ⟨self'', hs'', ?_⟩
        rw [hp'', hps₁, take_set_self _ _ _ hflt, drop_set_self _ _ _ hflt,
          take_succ_of_lt _ _ hflt, List.filterMap_append]
        simp [advDrop, hret]
      · intro tgtId tgt hne hgt
        have hgt₁ : getNode (setNode s selfId
            (setPulseAt fuel (advP dt self.pulses[fuel]))) tgtId = some tgt := by
          rw [getNode_setNode_ne s selfId tgtId
            (setPulseAt fuel (advP dt self.pulses[fuel])) (fun n => rfl) hne]
          exact hgt
        obtain ⟨tgt', hg', hc'⟩ := hcnt tgtId tgt hne hgt₁
        refine ⟨tgt', hg', ?_⟩
        rw [hc', hps₁, take_set_self _ _ _ hflt,
          take_succ_of_lt _ _ hflt, List.filter_append, List.length_append]
        have h1 : (List.filter (fun p =>
            decide (1 ≤ (advP dt p).progress) && decide (p.target = tgtId))
            [self.pulses[fuel]]).length = 0 := by
          simp [hret]
        rw [h1]
        omega

/-- Claim C4: over one `updatePulses` step with elapsed time at least 0
(and, matching the claim's scope, no pulse aimed back at its owner and no
forwarding coin firing), the owner's pulse list becomes exactly the
`advDrop` filter-map of its old list: each pulse advances by
`speed * (deltaTime / 16.667)`, is kept exactly while the advanced
progress stays below 1 (so progress is non-decreasing and stays in `[0,1)`
for pulses that started there with nonnegative speed), and is removed in
the same step once its progress reaches 1; every other entity's
pending-work counter grows by exactly the number of pulses retiring into
it in this step. -/
theorem updatePulses_characterization (s : NetState) (selfId : Nat) (dt : ℚ)
    (os : Nat → PulseOracle) (self : Node)
    (hget : getNode s selfId = some self) (hdt : 0 ≤ dt)
    (htgt : ∀ p ∈ self.pulses, p.target ≠ selfId)
    (hnf : ∀ k, (os k).rFwd ≤ 7/10) :
    (∃ self', getNode (updatePulses s selfId dt os) selfId = some self' ∧
      self'.pulses = self.pulses.filterMap (advDrop dt)) ∧
    (∀ p, p ∈ self.pulses → 0 ≤ p.progress → 0 ≤ p.speed →
      p.progress ≤ (advP dt p).progress ∧
      (∀ q, advDrop dt p = some q →
        q = advP dt p ∧ 0 ≤ q.progress ∧ q.progress < 1) ∧
      (advDrop dt p = none ↔ 1 ≤ (advP dt p).progress)) ∧
    (∀ tgtId tgt, tgtId ≠ selfId → getNode s tgtId = some tgt →
      ∃ tgt', getNode (updatePulses s selfId dt os) tgtId = some tgt' ∧
        tgt'.processingPulses = tgt.processingPulses +
          (self.pulses.filter (fun p =>
            decide (1 ≤ (advP dt p).progress) && decide (p.target = tgtId))).length) := by
  have hupd : updatePulses s selfId dt os =
      updatePulsesLoop selfId dt os self.pulses.length s := by
    unfold updatePulses
    rw [hget]
  obtain ⟨⟨self', hs', hp'⟩, hcnt⟩ := updatePulsesLoop_spec selfId dt os hnf
    self.pulses.length s self hget le_rfl htgt
  refine ⟨⟨self', by rw [hupd]; exact hs', ?_⟩, ?_, ?_⟩
  · rw [hp', List.take_length, List.drop_length, List.append_nil]
  · intro p hp hp0 hsp
    have hadv : 0 ≤ p.speed * (dt / (16667/1000)) :=
      mul_nonneg hsp (div_nonneg hdt (by norm_num))
    have hmono : p.progress ≤ (advP dt p).progress := by
      show p.progress ≤ p.progress + p.speed * (dt / (16667/1000))
      linarith
    refine ⟨hmono, ?_, ?_⟩
    · intro q hq
      unfold advDrop at hq
      by_cases hc : 1 ≤ (advP dt p).progress
      · rw [if_pos hc] at hq
        exact Option.noConfusion hq
      · rw [if_neg hc] at hq
        injection hq with hq
        subst hq
        exact ⟨rfl, le_trans hp0 hmono, not_le.mp hc⟩
    · unfold advDrop
      by_cases hc : 1 ≤ (advP dt p).progress
      · rw [if_pos hc]
        exact ⟨fun _ => hc, fun _ => rfl⟩
      · rw [if_neg hc]
        exact ⟨fun h => absurd h (Option.some_ne_none _), fun h => absurd h hc⟩
  · intro tgtId tgt hne hgt
    obtain ⟨tgt', hg', hc'⟩ := hcnt tgtId tgt hne hgt
    refine ⟨tgt', by rw [hupd]; exact hg', ?_⟩
    rw [hc', List.take_length]

/-- Node for the C4 witness: a process entity owning one half-way pulse. -/
def c4n0 : Node :=
  { Node.make 0 0 5 NodeType.process 0 1 0 0 with pulses := [⟨0, 1, 1/2, 1/100⟩] }

/-- Network for the C4 witness. -/
def c4s : NetState := [c4n0, Node.make 10 0 5 NodeType.destination 1 1 0 0]

/-- Oracle for the C4 witness: the forwarding coin never fires. -/
def c4os : Nat → PulseOracle := fun _ => ⟨0, ⟨0, 0, 0⟩⟩

/-- Claim C4 witness: the characterization applied to a concrete two-node
network, one pulse at progress 0.5 and a frame of 16.667 ms. -/
theorem updatePulses_characterization_witness :
    (∃ self', getNode (updatePulses c4s 0 (16667/1000) c4os) 0 = some self' ∧
      self'.pulses = c4n0.pulses.filterMap (advDrop (16667/1000))) ∧
    (∀ p, p ∈ c4n0.pulses → 0 ≤ p.progress → 0 ≤ p.speed →
      p.progress ≤ (advP (16667/1000) p).progress ∧
      (∀ q, advDrop (16667/1000) p = some q →
        q = advP (16667/1000) p ∧ 0 ≤ q.progress ∧ q.progress < 1) ∧
      (advDrop (16667/1000) p = none ↔ 1 ≤ (advP (16667/1000) p).progress)) ∧
    (∀ tgtId tgt, tgtId ≠ 0 → getNode c4s tgtId = some tgt →
      ∃ tgt', getNode (updatePulses c4s 0 (16667/1000) c4os) tgtId = some tgt' ∧
        tgt'.processingPulses = tgt.processingPulses +
          (c4n0.pulses.filter (fun p =>
            decide (1 ≤ (advP (16667/1000) p).progress) &&
            decide (p.target = tgtId))).length) :=
  updatePulses_characterization c4s 0 (16667/1000) c4os c4n0
    (by norm_num [c4s, c4n0, getNode, Node.make])
    (by norm_num)
    (by
      intro p hp
      simp [c4n0, Node.make] at hp
      subst hp
      decide)
    (fun k => by norm_num [c4os])

/-- Owner node for the C4 counterexample: a source holding one pulse that
will complete this frame, aimed at process node 1. -/
def c4cn0 : Node :=
  { Node.make 0 0 5 NodeType.source 0 1 0 0 with pulses := [⟨0, 1, 0, 51/2500⟩] }

/-- Process node 1 of the C4 counterexample, wired to destination 2. -/
def c4cn1 : Node := (Node.make 10 0 5 NodeType.process 1 1 0 0).connect 2

/-- Destination node 2 of the C4 counterexample (fully opaque). -/
def c4cn2 : Node := Node.make 20 0 5 NodeType.destination 2 1 0 0

/-- Network for the C4 counterexample. -/
def c4cs : NetState := [c4cn0, c4cn1, c4cn2]

/-- Oracle for the C4 counterexample: forwarding coin 0.9 fires, nested
emission draws 0.9 / index 0 / speed draw 0.8. -/
def c4cos : Nat → PulseOracle := fun _ => ⟨9/10, ⟨9/10, 0, 4/5⟩⟩

/-- Claim C4 counterexample: a pulse retires into process node 1 within
this update step (the owner's list empties), yet node 1's pending-work
counter does not increase by exactly 1 — it is still 0 afterwards, because
the arrival triggers the forwarding cascade (coin 0.9 > 0.7) whose nested
emission decrements the freshly incremented counter back to 0 within the
same step. -/
theorem updatePulses_exact_increment_counterexample :
    ((1:ℚ) ≤ (advP (83335/100) ⟨0, 1, 0, 51/2500⟩).progress ∧
      (∃ n, getNode c4cs 1 = some n ∧ n.type = NodeType.process ∧
        n.processingPulses = 0)) ∧
    (∃ m, getNode (updatePulses c4cs 0 (83335/100) c4cos) 0 = some m ∧
      m.pulses = []) ∧
    (∃ n, getNode (updatePulses c4cs 0 (83335/100) c4cos) 1 = some n ∧
      n.processingPulses = 0) := by
  have hev : updatePulses c4cs 0 (83335/100) c4cos =
      [{ c4cn0 with pulses := [] },
       { c4cn1 with pulses := [⟨1, 2, 0, 51/2500⟩] }, c4cn2] := by
    norm_num [c4cs, c4cn0, c4cn1, c4cn2, c4cos, updatePulses, updatePulsesLoop,
      stepIndex, forwardAtTarget, sendRandomImpulse, emitPulse, setNode, getNode,
      advP, PULSE_SPEED, Node.make, Node.connect]
  have h0 : getNode (updatePulses c4cs 0 (83335/100) c4cos) 0 =
      some { c4cn0 with pulses := [] } := by
    rw [hev]
    norm_num [getNode, c4cn0, Node.make]
  have h1 : getNode (updatePulses c4cs 0 (83335/100) c4cos) 1 =
      some { c4cn1 with pulses := [⟨1, 2, 0, 51/2500⟩] } := by
    rw [hev]
    norm_num [getNode, c4cn0, c4cn1, Node.make, Node.connect]
  refine ⟨⟨by norm_num [advP], c4cn1, ?_, ?_, ?_⟩, ⟨_, h0, rfl⟩, ⟨_, h1, ?_⟩⟩
  · norm_num [c4cs, c4cn0, c4cn1, getNode, Node.make, Node.connect]
  · norm_num [c4cn1, Node.make, Node.connect]
  · norm_num [c4cn1, Node.make, Node.connect]
  · norm_num [c4cn1, Node.make, Node.connect]

end ParticleNet
